import Mathlib

/-!
# Shallow embedding of the `trainvisualizer` routing engine

This file embeds the core of `routing.py` and `loading.py` (GTFS ingest,
time-expanded graph construction, earliest-arrival search, path
reconstruction, and the `compute_route`/`getRoute` facade) as executable
Lean definitions, and proves/refutes the specification claims about them.

Modelling conventions:
* CSV files are modelled post-`csv.DictReader`: a file is a list of rows,
  a row is an association list from column name to string value (a missing
  column is a missing key, exactly as `DictReader` omits nothing present in
  the header; `row.get(k, d)` / `row[k]` are `rowGetD` / `rowGet?`).
* The file system is a partial map from path strings to file contents;
  `None` models a missing file (Python's `FileNotFoundError` on `open`).
* Python exceptions are an explicit `PyErr` value threaded through
  `Except`; `getRoute`'s `except Exception` catch-all turns them into the
  `{"error": str(e), "success": False}` object.
* Python `dict` is an insertion-ordered association list with
  overwrite-in-place assignment (`dinsert`) and first-match lookup.
* Machine integers are `Nat`/`Int`; seconds-since-midnight values are `Nat`.
-/

set_option maxRecDepth 16384

/-! ## Python string and number primitives -/

/-- The ASCII whitespace characters stripped by Python `str.strip()`
(non-ASCII unicode whitespace is not needed by any claim). -/
def isPyWs (c : Char) : Bool :=
  c = ' ' || c = '\t' || c = '\n' || c = '\x0d' || c = '\x0b' || c = '\x0c'

/-- `str.strip()` on a character list. -/
def trimChars (cs : List Char) : List Char :=
  ((cs.dropWhile isPyWs).reverse.dropWhile isPyWs).reverse

/-- `str.lower()` on one ASCII character (Python lowercases unicode too,
but every string any claim touches is ASCII). -/
def lowerChar (c : Char) : Char :=
  if 'A' ≤ c ∧ c ≤ 'Z' then Char.ofNat (c.toNat + 32) else c

/-- Split a character list on a separator character (like `re` field
splitting on the literal separators of a `strptime` format). -/
def splitOnChar (sep : Char) : List Char → List (List Char)
  | [] => [[]]
  | c :: cs =>
    if c = sep then
      [] :: splitOnChar sep cs
    else
      match splitOnChar sep cs with
      | [] => [[c]]
      | f :: rest => (c :: f) :: rest

/-- Numeric value of a decimal digit character. -/
def digitVal (c : Char) : Nat := c.toNat - 48

/-- Value of a list of decimal digit characters, most significant first. -/
def natOfDigits (cs : List Char) : Nat :=
  cs.foldl (fun a c => a * 10 + digitVal c) 0

/-- CPython `int(s)`: strip whitespace, optional sign, then a nonempty run
of decimal digits.  (CPython also accepts `_` separators between digits;
no claim involves such inputs, so they are not modelled.)  `none` models
the `ValueError` raise. -/
def pyInt? (s : String) : Option Int :=
  let core : List Char → Option Int := fun ds =>
    if ds ≠ [] ∧ ds.all Char.isDigit then some (natOfDigits ds) else none
  match trimChars s.data with
  | '+' :: ds => core ds
  | '-' :: ds => (core ds).map (fun n => -n)
  | ds => core ds

/-- CPython `float(s)` restricted to plain decimal literals
(`[+-]?digits[.digits]` / `[+-]?.digits`): strip whitespace, optional
sign, digits with at most one point, at least one digit overall.
(`inf`/`nan`/exponent forms are not modelled; no claim involves them.)
`none` models the `ValueError` raise. -/
def pyFloat? (s : String) : Option ℚ :=
  let core : List Char → Option ℚ := fun ds =>
    match splitOnChar '.' ds with
    | [a] =>
      if a ≠ [] ∧ a.all Char.isDigit then some (natOfDigits a) else none
    | [a, b] =>
      if (a ≠ [] ∨ b ≠ []) ∧ a.all Char.isDigit ∧ b.all Char.isDigit then
        some ((natOfDigits a : ℚ) + (natOfDigits b : ℚ) / (10 : ℚ) ^ b.length)
      else none
    | _ => none
  match trimChars s.data with
  | '+' :: ds => core ds
  | '-' :: ds => (core ds).map (fun q => -q)
  | ds => core ds

/-- CPython `round(d / 60, 1)` for an integer number of seconds `d`,
modelled exactly on rationals: the number of minutes rounded to one
decimal, halves to even (CPython's `round`; the binary-float artefacts of
`d / 60` can flip an exact `.x5` tie, but no claim's statement depends on
tie direction). -/
def pyRound1 (d : Int) : ℚ :=
  let n := Int.fdiv d 6
  let r := d - 6 * n
  let tenths : Int :=
    if r = 3 then (if n % 2 = 0 then n else n + 1)
    else if r < 3 then n else n + 1
  (tenths : ℚ) / 10

/-! ## Time parsing and formatting (`routing.py` lines 15-25)

`parse_time_to_seconds` calls `datetime.strptime(t.strip(), "%H:%M:%S")`.
CPython's `_strptime` compiles `%H` to the regex `2[0-3]|[0-1]\d|\d`,
`%M` to `[0-5]\d|\d` and `%S` to `6[0-1]|[0-5]\d|\d`, anchored by the
literal colons and a full match.  Net effect: every field is one or two
digit characters; a two-digit hour must be ≤ 23, a two-digit minute ≤ 59,
a two-digit second ≤ 61 — and a parsed second of 60 or 61 then makes the
`datetime` constructor raise `ValueError`, which the `except ValueError`
also turns into `None`.  So the accepted strings are exactly: three
colon-separated fields of one or two digits with hour ≤ 23, minute ≤ 59,
second ≤ 59. -/

/-- One clock field of `strptime`: one or two digit characters, a
two-digit field bounded by `hi`. -/
def parseClockField (cs : List Char) (hi : Nat) : Option Nat :=
  if cs ≠ [] ∧ cs.all Char.isDigit ∧ cs.length ≤ 2 ∧
      (cs.length = 1 ∨ natOfDigits cs ≤ hi) then
    some (natOfDigits cs)
  else none

/-- The field phase of `strptime("%H:%M:%S")`: exactly three fields, the
three regex checks, and the extra second ≤ 59 bound imposed by the
`datetime` constructor (seconds 60/61 pass the regex but then raise). -/
def parse_time_fields : List (List Char) → Option Nat
  | [h, m, s] =>
    (parseClockField h 23).bind (fun hv =>
      (parseClockField m 59).bind (fun mv =>
        (parseClockField s 61).bind (fun sv =>
          if sv ≤ 59 then some (hv * 3600 + mv * 60 + sv) else none)))
  | _ => none

/-- `parse_time_to_seconds` from `routing.py`: `None` for falsy or
`"nan"` input, otherwise `strptime("%H:%M:%S")` with any failure giving
`None`; success yields `H*3600 + M*60 + S`. -/
def parse_time_to_seconds (t : String) : Option Nat :=
  if t.data = [] ∨ t.data.map lowerChar = "nan".data then none
  else parse_time_fields (splitOnChar ':' (trimChars t.data))

/-- Two-digit zero-padded decimal rendering (for `n < 100`). -/
def pad2 (n : Nat) : List Char :=
  if n < 10 then ['0', Nat.digitChar n]
  else [Nat.digitChar (n / 10), Nat.digitChar (n % 10)]

/-- The `HH:MM:SS` string built from three clock fields (each < 100),
zero-padded to two digits — the shape `str(datetime.time(...))` emits. -/
def mkClock (h m s : Nat) : String :=
  String.mk (pad2 h ++ (':' :: (pad2 m ++ (':' :: pad2 s))))

/-- `seconds_to_time` from `routing.py`:
`str(time(s // 3600, (s % 3600) // 60, s % 60))`.  The `time` constructor
raises `ValueError` when the hour is ≥ 24 (that is, `s ≥ 86400`),
modelled as `none`; otherwise the zero-padded `HH:MM:SS` string. -/
def seconds_to_time (s : Nat) : Option String :=
  if 24 ≤ s / 3600 then none
  else some (mkClock (s / 3600) (s % 3600 / 60) (s % 60))

/-! ## Rows, dicts, file system -/

/-- A CSV row after `csv.DictReader`: column name to string value. -/
abbrev Row := List (String × String)

/-- `row[k]` — `none` models the `KeyError` raise. -/
def rowGet? (r : Row) (k : String) : Option String :=
  (r.find? (fun p => p.1 = k)).map (fun p => p.2)

/-- `row.get(k, d)`. -/
def rowGetD (r : Row) (k d : String) : String := (rowGet? r k).getD d

/-- A Python `dict` keyed by strings: insertion-ordered association list
with unique keys by construction. -/
abbrev Dict (α : Type) := List (String × α)

/-- First-match lookup (`d.get(k)` / `k in d`). -/
def dget? {α : Type} (d : Dict α) (k : String) : Option α :=
  (d.find? (fun p => p.1 = k)).map (fun p => p.2)

/-- `d[k] = v`: overwrite in place if the key exists, else append. -/
def dinsert {α : Type} (k : String) (v : α) : Dict α → Dict α
  | [] => [(k, v)]
  | (k', v') :: rest =>
    if k' = k then (k, v) :: rest else (k', v') :: dinsert k v rest

/-- `defaultdict(list)` append: `d[k].append(v)` creating `[]` if absent. -/
def dappendList {α : Type} (k : String) (v : α) : Dict (List α) → Dict (List α)
  | [] => [(k, [v])]
  | (k', l) :: rest =>
    if k' = k then (k', l ++ [v]) :: rest else (k', l) :: dappendList k v rest

/-- A CSV file's parsed contents. -/
abbrev Csv := List Row

/-- The input directory tree: path → file contents, `none` = missing file. -/
abbrev FileSystem := String → Option Csv

/-- `Path` joining `data_dir / "name.csv"`. -/
def pathJoin (d f : String) : String := d ++ "/" ++ f

/-- `DATA_DIR_DEFAULT = Path("public/data")` from `routing.py`. -/
def DATA_DIR_DEFAULT : String := "public/data"

/-- Delete one file from a file-system tree. -/
def removeFile (fs : FileSystem) (p : String) : FileSystem :=
  fun q => if q = p then none else fs q

/-- Build a file system from an explicit path/contents list. -/
def fsOfList (l : List (String × Csv)) : FileSystem :=
  fun p => (l.find? (fun q => q.1 = p)).map (fun q => q.2)

/-! ## Python exceptions -/

/-- The exceptions the engine can raise. -/
inductive PyErr where
  | valueError (msg : String)
  | keyError (key : String)
  | fileNotFoundError (path : String)
deriving DecidableEq

/-- `str(e)` as used by `getRoute`'s catch-all. -/
def PyErr.toMessage : PyErr → String
  | .valueError m => m
  | .keyError k => "'" ++ k ++ "'"
  | .fileNotFoundError p => "[Errno 2] No such file or directory: '" ++ p ++ "'"

/-! ## Tabular ingest (`loading.py`) -/

/-- A stop from `stops.csv` (`loading.Stop`). -/
structure Stop where
  stop_id : String
  name : String
  lat : ℚ
  lon : ℚ
deriving DecidableEq, Inhabited

/-- `load_stops`: skip rows with falsy `stop_id`; coordinate parse failure
skips the row (`except ValueError: continue`); `float(x or 0.0)` uses 0.0
directly for a missing/empty coordinate string. -/
def load_stops (path : String) (file : Option Csv) : Except PyErr (Dict Stop) :=
  match file with
  | none => .error (.fileNotFoundError path)
  | some rows =>
    .ok (rows.foldl (fun acc row =>
      match rowGet? row "stop_id" with
      | none => acc
      | some "" => acc
      | some sid =>
        let coord : Option String → Option ℚ := fun s? =>
          match s? with
          | none => some 0
          | some "" => some 0
          | some s => pyFloat? s
        match coord (rowGet? row "stop_lat"), coord (rowGet? row "stop_lon") with
        | some la, some lo =>
          dinsert sid ⟨sid, rowGetD row "stop_name" "", la, lo⟩ acc
        | _, _ => acc) [])

/-- The sort key of `load_stop_times_by_trip`:
`int(r.get("stop_sequence", 0))` — the integer default `0` applies only
when the key is absent; a present but unparseable value is a
`ValueError`. -/
def stopSeqKey? (r : Row) : Option Int :=
  match rowGet? r "stop_sequence" with
  | none => some 0
  | some s => pyInt? s

/-- Stable insertion sort by an integer key (Python `list.sort(key=...)`
is stable; a stable sort by key is extensionally unique, so insertion
sort models Timsort exactly). -/
def insertByKey {α : Type} (key : α → Int) (x : α) : List α → List α
  | [] => [x]
  | y :: ys => if key y < key x then y :: insertByKey key x ys else x :: y :: ys

/-- Stable sort by key. -/
def sortByKey {α : Type} (key : α → Int) : List α → List α
  | [] => []
  | x :: xs => insertByKey key x (sortByKey key xs)

/-- Grouping phase of `load_stop_times_by_trip`:
`trips[row["trip_id"]].append(row)` — `row["trip_id"]` raises `KeyError`
when the column is absent. -/
def groupByTripAux : Csv → Dict (List Row) → Except PyErr (Dict (List Row))
  | [], acc => .ok acc
  | row :: rest, acc =>
    match rowGet? row "trip_id" with
    | none => .error (.keyError "trip_id")
    | some tid => groupByTripAux rest (dappendList tid row acc)

def groupByTrip (rows : Csv) : Except PyErr (Dict (List Row)) :=
  groupByTripAux rows []

/-- Sorting phase: CPython computes every row's key first (in list
order), raising at the first failure, then sorts stably. -/
def sortTripRows (l : List Row) : Except PyErr (List Row) :=
  match l.find? (fun r => (stopSeqKey? r).isNone) with
  | some r =>
    .error (.valueError ("invalid literal for int() with base 10: '" ++
      rowGetD r "stop_sequence" "" ++ "'"))
  | none => .ok (sortByKey (fun r => (stopSeqKey? r).getD 0) l)

/-- The `for trip_id in trips: trips[trip_id].sort(...)` loop, in dict
order. -/
def sortAllTrips : List (String × List Row) → Except PyErr (Dict (List Row))
  | [] => .ok []
  | (tid, l) :: rest => do
    let s ← sortTripRows l
    let rest' ← sortAllTrips rest
    .ok ((tid, s) :: rest')

/-- `load_stop_times_by_trip` from `loading.py`. -/
def load_stop_times_by_trip (path : String) (file : Option Csv) :
    Except PyErr (Dict (List Row)) :=
  match file with
  | none => .error (.fileNotFoundError path)
  | some rows => do
    let grouped ← groupByTrip rows
    sortAllTrips grouped

/-- A route from `routes.csv`. -/
structure RouteInfo where
  route_short_name : String
  route_long_name : String
  route_type : String
deriving DecidableEq, Inhabited

/-- `load_routes_info`: a missing file is caught (`except
FileNotFoundError: pass`) and yields the empty dict. -/
def load_routes_info (file : Option Csv) : Dict RouteInfo :=
  match file with
  | none => []
  | some rows =>
    rows.foldl (fun acc row =>
      dinsert (rowGetD row "route_id" "")
        ⟨rowGetD row "route_short_name" "", rowGetD row "route_long_name" "",
          rowGetD row "route_type" ""⟩ acc) []

/-- A trip from `trips.csv`. -/
structure TripInfo where
  route_id : String
  service_id : String
  trip_headsign : String
  trip_short_name : String
deriving DecidableEq, Inhabited

/-- `load_trips_info`: a missing file yields the empty dict. -/
def load_trips_info (file : Option Csv) : Dict TripInfo :=
  match file with
  | none => []
  | some rows =>
    rows.foldl (fun acc row =>
      dinsert (rowGetD row "trip_id" "")
        ⟨rowGetD row "route_id" "", rowGetD row "service_id" "",
          rowGetD row "trip_headsign" "", rowGetD row "trip_short_name" ""⟩ acc) []

/-- `load_calendar_dates`: a missing file yields the empty dict; rows with
`exception_type == "1"` contribute `row["service_id"] → row["date"]`
(direct indexing, so absent columns raise `KeyError`). -/
def load_calendar_dates (file : Option Csv) : Except PyErr (Dict (List String)) :=
  match file with
  | none => .ok []
  | some rows =>
    rows.foldlM (fun acc row =>
      if rowGet? row "exception_type" = some "1" then
        match rowGet? row "service_id" with
        | none => .error (.keyError "service_id")
        | some sid =>
          match rowGet? row "date" with
          | none => .error (.keyError "date")
          | some dt => .ok (dappendList sid dt acc)
      else .ok acc) []

/-! ## Time-expanded graph (`build_transit_graph`, `routing.py` 27-166) -/

/-- The attributes `G.add_node` stores (`routing.py` lines 103-115). -/
structure NodeAttrs where
  stop_id : String
  trip_id : String
  route_id : String
  arrival_time : Nat
  departure_time : Nat
  stop_sequence : Nat
  stop_name : String
  route_name : String
  route_description : String
  trip_headsign : String
  trip_short_name : String
  date : String
deriving DecidableEq, Inhabited

/-- The attributes of `NodeAttrs` that do not come from `routes.csv`
(everything except `route_name` and `route_description`); removing the
routes table can only change the two dropped decorations. -/
structure NodeCore where
  stop_id : String
  trip_id : String
  route_id : String
  arrival_time : Nat
  departure_time : Nat
  stop_sequence : Nat
  stop_name : String
  trip_headsign : String
  trip_short_name : String
  date : String
deriving DecidableEq, Inhabited

def NodeAttrs.core (a : NodeAttrs) : NodeCore :=
  ⟨a.stop_id, a.trip_id, a.route_id, a.arrival_time, a.departure_time,
    a.stop_sequence, a.stop_name, a.trip_headsign, a.trip_short_name, a.date⟩

/-- Edge attributes: `edge_type="in_vehicle"` edges carry `trip_id`,
`edge_type="transfer"` edges carry `transfer_stop`. -/
inductive EdgeData where
  | in_vehicle (weight : Int) (trip_id : String)
  | transfer (weight : Int) (transfer_stop : String)
deriving DecidableEq

/-- The directed graph: node dict plus an edge dict keyed by the
(source, target) pair — `networkx.DiGraph.add_edge` overwrites the
attributes of an existing edge, like dict assignment. -/
structure Graph where
  nodes : Dict NodeAttrs
  edges : List ((String × String) × EdgeData)
deriving DecidableEq

def edgeInsert (u v : String) (d : EdgeData) :
    List ((String × String) × EdgeData) → List ((String × String) × EdgeData)
  | [] => [((u, v), d)]
  | e :: rest =>
    if e.1 = (u, v) then ((u, v), d) :: rest else e :: edgeInsert u v d rest

def Graph.addNode (G : Graph) (n : String) (a : NodeAttrs) : Graph :=
  { G with nodes := dinsert n a G.nodes }

def Graph.addEdge (G : Graph) (u v : String) (d : EdgeData) : Graph :=
  { G with edges := edgeInsert u v d G.edges }

def lookupEdge (G : Graph) (u v : String) : Option EdgeData :=
  (G.edges.find? (fun e => e.1 = (u, v))).map (fun e => e.2)

/-- `G.nodes[n]` — networkx raises `KeyError` for an absent node; every
call site in the engine passes a node id that was previously added
together with its `stop_departures` entry, so the default is never
read. -/
def nodeAttr (G : Graph) (n : String) : NodeAttrs :=
  (dget? G.nodes n).getD default

/-- `f"{stop_id}_{trip_id}_{idx}"`. -/
def mkNodeId (stop_id trip_id : String) (idx : Nat) : String :=
  stop_id ++ "_" ++ trip_id ++ "_" ++ toString idx

/-- `{service_id for service_id, dates in service_dates.items() if date in
dates}` (membership is all the engine uses, so a list with the dict's key
order models the set). -/
def activeServiceIds (service_dates : Dict (List String)) (date : String) :
    List String :=
  (service_dates.filter (fun p => date ∈ p.2)).map (fun p => p.1)

/-- `trip_routes.get(trip_id, {}).get("service_id") in active_service_ids`:
a missing trip gives `None`, which is never in a set of strings. -/
def dateRelevantTrips (trips : Dict (List Row)) (trip_routes : Dict TripInfo)
    (active : List String) : Dict (List Row) :=
  trips.filter (fun p =>
    match dget? trip_routes p.1 with
    | some info => info.service_id ∈ active
    | none => false)

/-- `any(parse(dep) and parse(dep) >= start for ...)`: the row counts only
if the parsed departure is truthy (not `None` **and not 0**) and at or
after the start — Python's `and` returns the falsy left operand, so a
`00:00:00` departure (0 seconds) never satisfies this test. -/
def has_relevant_departure (start_time_secs : Nat) (rows : List Row) : Bool :=
  rows.any (fun r =>
    match parse_time_to_seconds (rowGetD r "departure_time" "") with
    | some v => decide (v ≠ 0) && decide (start_time_secs ≤ v)
    | none => false)

/-- The trips surviving both filters of `build_transit_graph`. -/
def relevantTrips (trips : Dict (List Row)) (trip_routes : Dict TripInfo)
    (active : List String) (start_time_secs : Nat) : Dict (List Row) :=
  (dateRelevantTrips trips trip_routes active).filter
    (fun p => has_relevant_departure start_time_secs p.2)

/-- A stop-time row's parsed `(arrival_secs, departure_secs)`, `none` if
either is unparseable. -/
def rowTimes (r : Row) : Option (Nat × Nat) :=
  match parse_time_to_seconds (rowGetD r "arrival_time" ""),
      parse_time_to_seconds (rowGetD r "departure_time" "") with
  | some a, some d => some (a, d)
  | _, _ => none

/-- A row produces a node iff both times parse and the departure is
within the 24-hour horizon (`departure_secs > start + 24*3600` skips). -/
def emittedRow (start_time_secs : Nat) (r : Row) : Option (Nat × Nat) :=
  match rowTimes r with
  | some (a, d) =>
    if start_time_secs + 24 * 3600 < d then none else some (a, d)
  | none => none

/-- The graph-building state: the graph plus `stop_departures`. -/
structure BuildState where
  G : Graph
  sd : Dict (List (String × Nat))
deriving DecidableEq

/-- The per-trip walk of `build_transit_graph` (lines 86-130) is
`addTripRows` below: `prev` holds `(prev_node_id, prev_arrival_time)` —
the latter is, as in the source, the *departure* seconds of the previous
emitted row.  Skipped rows (unparseable times or beyond the horizon)
leave `prev` unchanged, so the next in-vehicle edge spans them.
`stop_time["stop_id"]` is a direct index (KeyError if absent) and runs
before the times are inspected; `stop_departures[stop_id]` (`sdAppend`)
is also a direct index (KeyError for a stop absent from `stops.csv`). -/
def sdAppend (sid nid : String) (d : Nat) (st : BuildState) :
    Except PyErr BuildState :=
  match dget? st.sd sid with
  | none => .error (.keyError sid)
  | some l => .ok { st with sd := dinsert sid (l ++ [(nid, d)]) st.sd }

/-- Lines 121-127: the in-vehicle edge from the previous emitted node,
added only when the travel time is non-negative. -/
def addPrevEdge (tid : String) (a : Nat) (prev : Option (String × Nat))
    (nid : String) (st : BuildState) : BuildState :=
  match prev with
  | some (pid, pdep) =>
    if 0 ≤ (a : Int) - (pdep : Int) then
      { st with G := st.G.addEdge pid nid (.in_vehicle ((a : Int) - (pdep : Int)) tid) }
    else st
  | none => st

def addTripRows (stops : Dict Stop) (date : String) (start_time_secs : Nat)
    (tid route_id route_name route_description trip_headsign trip_short_name :
      String) :
    List Row → Nat → Option (String × Nat) → BuildState →
      Except PyErr BuildState
  | [], _, _, st => .ok st
  | r :: rest, idx, prev, st =>
    match rowGet? r "stop_id" with
    | none => .error (.keyError "stop_id")
    | some sid =>
      match emittedRow start_time_secs r with
      | none =>
        addTripRows stops date start_time_secs tid route_id route_name
          route_description trip_headsign trip_short_name rest (idx + 1) prev st
      | some (a, d) => do
        let nid := mkNodeId sid tid idx
        let attrs : NodeAttrs :=
          ⟨sid, tid, route_id, a, d, idx,
            ((dget? stops sid).map (fun s => s.name)).getD "",
            route_name, route_description, trip_headsign, trip_short_name, date⟩
        let st2 ← sdAppend sid nid d { st with G := st.G.addNode nid attrs }
        addTripRows stops date start_time_secs tid route_id route_name
          route_description trip_headsign trip_short_name rest (idx + 1)
          (some (nid, d)) (addPrevEdge tid a prev nid st2)

/-- Lines 78-130: per-trip decoration lookup then the row walk.
`trip_routes.get(trip_id, {})` gives empty-string attributes;
`routes.get(route_id, {}).get("route_short_name", route_id)` falls back
to the route id for the display name. -/
def addAllTrips (stops : Dict Stop) (date : String) (start_time_secs : Nat)
    (routes : Dict RouteInfo) (trip_routes : Dict TripInfo) :
    List (String × List Row) → BuildState → Except PyErr BuildState
  | [], st => .ok st
  | (tid, rows) :: rest, st => do
    let tinfo := (dget? trip_routes tid).getD ⟨"", "", "", ""⟩
    let route_id := tinfo.route_id
    let route_name :=
      match dget? routes route_id with
      | some ri => ri.route_short_name
      | none => route_id
    let route_description :=
      match dget? routes route_id with
      | some ri => ri.route_long_name
      | none => ""
    let st' ← addTripRows stops date start_time_secs tid route_id route_name
      route_description tinfo.trip_headsign tinfo.trip_short_name rows 0 none st
    addAllTrips stops date start_time_secs routes trip_routes rest st'

/-- Lines 147-163: from one departure node, scan the (at most
`MAX_TRANSFERS_PER_ARRIVAL = 2`) following departures of the same stop,
adding a transfer edge per distinct-trip departure with non-negative wait
(weight `wait + 600`), breaking once 2 were added. -/
def scanTransfers (stop_id from_node from_trip : String) (from_arrival : Nat) :
    List (String × Nat) → Nat → Graph → Graph
  | [], _, G => G
  | (to_node, to_time) :: rest, added, G =>
    let to_trip := (nodeAttr G to_node).trip_id
    if from_trip ≠ to_trip then
      let wait : Int := (to_time : Int) - (from_arrival : Int)
      if 0 ≤ wait then
        let G' := G.addEdge from_node to_node (.transfer (wait + 600) stop_id)
        if 2 ≤ added + 1 then G'
        else scanTransfers stop_id from_node from_trip from_arrival rest
          (added + 1) G'
      else scanTransfers stop_id from_node from_trip from_arrival rest added G
    else scanTransfers stop_id from_node from_trip from_arrival rest added G

/-- Lines 141-163: iterate over a stop's sorted departures. -/
def transferLoop (stop_id : String) :
    List (String × Nat) → Graph → Graph
  | [], G => G
  | (from_node, _) :: rest, G =>
    let from_trip := (nodeAttr G from_node).trip_id
    let from_arrival := (nodeAttr G from_node).arrival_time
    transferLoop stop_id rest
      (scanTransfers stop_id from_node from_trip from_arrival (rest.take 2) 0 G)

/-- Lines 134-163: all stops, in `stop_departures` order. -/
def addAllTransfers : List (String × List (String × Nat)) → Graph → Graph
  | [], G => G
  | (sid, deps) :: rest, G => addAllTransfers rest (transferLoop sid deps G)

/-- `build_transit_graph` (lines 27-166).  The calendar is read from the
hard-coded `DATA_DIR_DEFAULT / "calendar_dates.csv"`, not from the query's
data directory.  The in-place `departures.sort(key=lambda x: x[1])`
mutates `stop_departures`, so the returned per-stop lists are sorted. -/
def build_transit_graph (fs : FileSystem) (stops : Dict Stop)
    (trips : Dict (List Row)) (routes : Dict RouteInfo)
    (trip_routes : Dict TripInfo) (start_time_secs : Nat) (date : String) :
    Except PyErr (Graph × Dict (List (String × Nat))) := do
  let sd0 : Dict (List (String × Nat)) := stops.map (fun p => (p.1, []))
  let calPath := pathJoin DATA_DIR_DEFAULT "calendar_dates.csv"
  let service_dates ← load_calendar_dates (fs calPath)
  let active := activeServiceIds service_dates date
  let rel := relevantTrips trips trip_routes active start_time_secs
  let st ← addAllTrips stops date start_time_secs routes trip_routes rel
    ⟨⟨[], []⟩, sd0⟩
  let sdSorted := st.sd.map (fun p => (p.1, sortByKey (fun q => (q.2 : Int)) p.2))
  let G := addAllTransfers sdSorted st.G
  .ok (G, sdSorted)

/-! ## Shortest-path search (`find_earliest_arrival_path`, lines 169-222)

`nx.single_source_dijkstra(G, s)` returns `(lengths, paths)` covering
exactly the nodes reachable from `s`, each `paths[n]` being a path from
`s` ending at `n`.  The engine uses only (a) membership of a destination
node in `lengths` and (b) the terminal node of the kept path — never the
Dijkstra cost and never the interior of a path except to re-emit it.  The
model below computes, for every reachable node, one path from the source
(a breadth-style closure); which path is chosen among several is
implementation-defined in both the model and networkx. -/

abbrev EdgeList := List ((String × String) × EdgeData)

/-- Successors of `u` (edge targets), in edge-insertion order. -/
def succs (es : EdgeList) (u : String) : List String :=
  (es.filter (fun e => e.1.1 = u)).map (fun e => e.1.2)

/-- One closure round: for every settled node, append every unseen
successor with its extended path. -/
def expandOne (es : EdgeList) (u : String) (pu : List String)
    (acc : Dict (List String)) : Dict (List String) :=
  (succs es u).foldl
    (fun a v => if (dget? a v).isSome then a else a ++ [(v, pu ++ [v])]) acc

def expandAll (es : EdgeList) (vis : Dict (List String)) : Dict (List String) :=
  vis.foldl (fun a p => expandOne es p.1 p.2 a) vis

/-- Iterate the closure to a fixed point (length stops growing). -/
def iterExpand (es : EdgeList) : Nat → Dict (List String) → Dict (List String)
  | 0, vis => vis
  | fuel + 1, vis =>
    let vis' := expandAll es vis
    if vis'.length = vis.length then vis else iterExpand es fuel vis'

/-- The `(paths)` map of `nx.single_source_dijkstra(G, s)`: one entry per
node reachable from `s`.  Every key other than `s` is an edge target, so
`|edges| + 1` closure rounds reach the fixed point. -/
def single_source_paths (es : EdgeList) (s : String) : Dict (List String) :=
  iterExpand es (es.length + 1) [(s, [s])]

/-- Reachability in the graph (the set `single_source_dijkstra` covers). -/
inductive Reach (es : EdgeList) (s : String) : String → Prop where
  | refl : Reach es s s
  | step {u v : String} : Reach es s u → v ∈ succs es u → Reach es s v

/-- `find_earliest_arrival_path` (lines 169-222), split into named
pieces.  Valid starts are the origin's departures at/after the start
time; at most 10 are tried; for each, every destination node present in
the Dijkstra cover is compared by its *real* `arrival_time` attribute
(strict improvement, so the first minimal path found is kept). -/
def validStarts (sd : Dict (List (String × Nat))) (origin_id : String)
    (start_time_secs : Nat) : List String :=
  (((dget? sd origin_id).getD []).filter (fun p => start_time_secs ≤ p.2)).map
    (fun p => p.1)

/-- The destination node list (`stop_departures.get(dest_id, [])`). -/
def destNodes (sd : Dict (List (String × Nat))) (dest_id : String) :
    List String :=
  ((dget? sd dest_id).getD []).map (fun p => p.1)

/-- One destination comparison (lines 213-218): a destination present in
the Dijkstra cover improves the running best iff its real arrival is
strictly smaller. -/
def considerDest (G : Graph) (paths : Dict (List String))
    (b : Option (Nat × List String)) (d : String) :
    Option (Nat × List String) :=
  match dget? paths d with
  | none => b
  | some p =>
    let arr := (nodeAttr G d).arrival_time
    match b with
    | none => some (arr, p)
    | some (ba, bp) => if arr < ba then some (arr, p) else some (ba, bp)

def find_earliest_arrival_path (G : Graph) (sd : Dict (List (String × Nat)))
    (origin_id dest_id : String) (start_time_secs : Nat) :
    Option (List String) :=
  let valid_starts := validStarts sd origin_id start_time_secs
  if valid_starts = [] then none
  else
    let dest_nodes := destNodes sd dest_id
    if dest_nodes = [] then none
    else
      let best := (valid_starts.take 10).foldl
        (fun best start_node =>
          let paths := single_source_paths G.edges start_node
          dest_nodes.foldl (considerDest G paths) best)
        none
      best.map (fun p => p.2)

/-- Is `d` in the cover of the search run from `s`? -/
def reachableFromB (es : EdgeList) (s d : String) : Bool :=
  (dget? (single_source_paths es s) d).isSome

/-- The destination nodes scanned by the search, in scan order: for each
considered start (at most 10, in order), the destination nodes its
Dijkstra run covers. -/
def scanList (G : Graph) (sd : Dict (List (String × Nat)))
    (origin_id dest_id : String) (start_time_secs : Nat) : List String :=
  ((validStarts sd origin_id start_time_secs).take 10).flatMap
    (fun s => (destNodes sd dest_id).filter (fun d => reachableFromB G.edges s d))

/-- The first element of a list minimising `f` (strict improvement keeps
the earlier element on ties). -/
def firstMinBy (f : String → Nat) (l : List String) : Option String :=
  l.foldl (fun acc x =>
    match acc with
    | none => some x
    | some b => if f x < f b then some x else some b) none

/-! ## Path reconstruction (`path_to_detailed_route`, lines 225-357) -/

/-- Lines 241-246: if the path's first hop is a same-stop different-trip
transfer, drop the first node. -/
def stripOriginTransfer (G : Graph) (path : List String) : List String :=
  match path with
  | a :: b :: rest =>
    if (nodeAttr G a).stop_id = (nodeAttr G b).stop_id ∧
        (nodeAttr G a).trip_id ≠ (nodeAttr G b).trip_id then
      b :: rest
    else a :: b :: rest
  | _ => path

/-- Lines 249-272, the `while` loop: drop a node at the same stop as the
last kept one when the *next* node is also at that stop (a mid-wait
node); `lastKept` is `cleaned_path[-1]`. -/
def elideSameStop (G : Graph) (lastKept : String) : List String → List String
  | [] => []
  | cur :: rest =>
    if (nodeAttr G cur).stop_id = (nodeAttr G lastKept).stop_id then
      match rest with
      | next :: _ =>
        if (nodeAttr G next).stop_id = (nodeAttr G cur).stop_id then
          elideSameStop G lastKept rest
        else cur :: elideSameStop G cur rest
      | [] => cur :: elideSameStop G cur rest
    else cur :: elideSameStop G cur rest

/-- The full cleanup (both rules, in source order; paths of length ≤ 1
are left untouched by the elision loop). -/
def cleanPath (G : Graph) (path : List String) : List String :=
  match stripOriginTransfer G path with
  | a :: b :: rest => a :: elideSameStop G a (b :: rest)
  | p => p

/-- One emitted stop record (lines 313-332). -/
structure StopRecord where
  stop_id : String
  stop_name : String
  stop_lat : ℚ
  stop_lon : ℚ
  arrival_time : Option String
  departure_time : Option String
  trip_id : String
  route_id : String
  route_name : String
  route_description : String
  trip_headsign : String
  trip_short_name : String
  date : String
  is_transfer : Bool
  transfer_note : Option String
  transfer_type : Option String
deriving DecidableEq

/-- One entry of the journey's transfer list (lines 300-310). -/
structure TransferRecord where
  at_stop : String
  stop_id : String
  stop_lat : ℚ
  stop_lon : ℚ
  transfer_info : String
  from_trip : String
  to_trip : String
  from_route : String
  to_route : String
deriving DecidableEq

/-- Lines 278-335: walk the cleaned path emitting stop records and
transfer entries; `prev` is the previous path node (`last_trip_id` is its
`trip_id`, `from_route` its `route_id`). -/
def emitStops (G : Graph) (stops : Dict Stop) :
    List String → Option String → List StopRecord × List TransferRecord
  | [], _ => ([], [])
  | nid :: rest, prev =>
    let nd := nodeAttr G nid
    let coord :=
      match dget? stops nd.stop_id with
      | some st => (st.lat, st.lon)
      | none => ((0 : ℚ), (0 : ℚ))
    let transferInfo : Option (String × TransferRecord) :=
      match prev with
      | some pid =>
        let lt := (nodeAttr G pid).trip_id
        if nd.trip_id ≠ lt then
          let note := "Transfer from trip " ++ lt ++ " to trip " ++ nd.trip_id
          some (note,
            ⟨nd.stop_name, nd.stop_id, coord.1, coord.2, note, lt, nd.trip_id,
              (nodeAttr G pid).route_id, nd.route_id⟩)
        else none
      | none => none
    let rec_ : StopRecord :=
      ⟨nd.stop_id, nd.stop_name, coord.1, coord.2,
        seconds_to_time nd.arrival_time, seconds_to_time nd.departure_time,
        nd.trip_id, nd.route_id, nd.route_name, nd.route_description,
        nd.trip_headsign, nd.trip_short_name, nd.date,
        transferInfo.isSome, transferInfo.map (fun p => p.1),
        transferInfo.map (fun _ => "departure")⟩
    let rest' := emitStops G stops rest (some nid)
    (rec_ :: rest'.1, (transferInfo.map (fun p => [p.2])).getD [] ++ rest'.2)

/-- The success journey record (lines 344-357). -/
structure Journey where
  origin : String
  origin_name : String
  destination : String
  destination_name : String
  start_time : String
  date : String
  arrival_time : Option String
  total_travel_minutes : ℚ
  stop_count : Nat
  transfer_count : Nat
  transfers : List TransferRecord
  detailed_route : List StopRecord
deriving DecidableEq

/-- The identical-endpoint result of `compute_route` (lines 406-419):
one synthetic stop whose arrival and departure are the start time. -/
structure TrivialJourney where
  origin : String
  destination : String
  start_time : String
  total_travel_minutes : ℚ
  stop_id : String
  stop_name : String
  arrival_time : String
  departure_time : String
  stop_note : String
  note : String
deriving DecidableEq

/-- Every dict shape `getRoute` can return. -/
inductive RouteOutput where
  | journey (j : Journey)
  | trivialRoute (t : TrivialJourney)
  | errObj (msg : String) (successFalse : Bool)
deriving DecidableEq

/-- `path_to_detailed_route` (lines 225-357).  After cleanup the code
rebinds `path`, so the totals use the cleaned path's first departure and
last arrival; `round(...) if start_secs else 0` makes a first departure
of exactly 0 seconds (midnight) yield a total of 0. -/
def path_to_detailed_route (G : Graph) (path : List String)
    (stops : Dict Stop) (origin_id dest_id start_time date : String) :
    RouteOutput :=
  if path = [] then .errObj "No path found" false
  else
    let p := cleanPath G path
    let emitted := emitStops G stops p none
    let start_secs := (nodeAttr G (p.headD "")).departure_time
    let final_arrival_secs := (nodeAttr G (p.getLastD "")).arrival_time
    let total : ℚ :=
      if start_secs = 0 then 0
      else pyRound1 ((final_arrival_secs : Int) - (start_secs : Int))
    .journey
      ⟨origin_id, ((dget? stops origin_id).map (fun s => s.name)).getD origin_id,
        dest_id, ((dget? stops dest_id).map (fun s => s.name)).getD dest_id,
        start_time, date, seconds_to_time final_arrival_secs, total,
        emitted.1.length, emitted.2.length, emitted.2, emitted.1⟩

/-! ## Engine facade (`earliest_arrival_routing`, `compute_route`,
`getRoute`; lines 360-426) -/

/-- `date.replace("-", "")`. -/
def stripHyphens (date : String) : String :=
  String.mk (date.data.filter (fun c => c ≠ '-'))

/-- `earliest_arrival_routing` (lines 360-388); note the error messages
use the hyphen-stripped date. -/
def earliest_arrival_routing (fs : FileSystem) (stops : Dict Stop)
    (trips : Dict (List Row)) (routes : Dict RouteInfo)
    (trip_routes : Dict TripInfo) (origin_id dest_id start_time date : String) :
    Except PyErr RouteOutput :=
  let date' := stripHyphens date
  match parse_time_to_seconds start_time with
  | none => .ok (.errObj ("Invalid start_time: " ++ start_time) false)
  | some start_secs => do
    let (G, sd) ← build_transit_graph fs stops trips routes trip_routes
      start_secs date'
    match find_earliest_arrival_path G sd origin_id dest_id start_secs with
    | none =>
      .ok (.errObj ("No route found from " ++ origin_id ++ " to " ++ dest_id ++
        " after " ++ start_time ++ " on " ++ date') false)
    | some path =>
      .ok (path_to_detailed_route G path stops origin_id dest_id start_time
        date')

/-- `compute_route` (lines 390-420).  The endpoints are `Option String`
because the source's guard is `origin_id is None` — a *string* absent
from the stop catalogue passes this check.  `stops[origin_id]` in the
identical-endpoint branch is a direct index (KeyError when absent). -/
def compute_route (fs : FileSystem) (origin_id dest_id : Option String)
    (start_time date : String) (data_dir : String) :
    Except PyErr RouteOutput := do
  let stops ← load_stops (pathJoin data_dir "stops.csv")
    (fs (pathJoin data_dir "stops.csv"))
  let trips ← load_stop_times_by_trip (pathJoin data_dir "stop_times.csv")
    (fs (pathJoin data_dir "stop_times.csv"))
  let routes := load_routes_info (fs (pathJoin data_dir "routes.csv"))
  let trip_routes := load_trips_info (fs (pathJoin data_dir "trips.csv"))
  match origin_id with
  | none => .error (.valueError "Origin stop not found: None")
  | some o =>
    match dest_id with
    | none => .error (.valueError "Destination stop not found: None")
    | some d =>
      if o = d then
        match dget? stops o with
        | none => .error (.keyError o)
        | some st =>
          .ok (.trivialRoute
            ⟨o, d, start_time, 0, o, st.name, start_time, start_time,
              "Origin equals destination", "Origin equals destination"⟩)
      else
        earliest_arrival_routing fs stops trips routes trip_routes o d
          start_time date

/-- `getRoute` (lines 422-426): the catch-all turns any raise into
`{"error": str(e), "success": False}`. -/
def getRoute (fs : FileSystem) (station1 station2 : Option String)
    (start_time date : String) (data_dir : String) : RouteOutput :=
  match compute_route fs station1 station2 start_time date data_dir with
  | .ok r => r
  | .error e => .errObj e.toMessage true

/-- Does the result answer the query with a (non-trivial) journey? -/
def answersJourney : RouteOutput → Bool
  | .journey _ => true
  | _ => false

/-- The `error` string of an error object, if the result is one. -/
def RouteOutput.errorMsg? : RouteOutput → Option String
  | .errObj m _ => some m
  | _ => none

/-- The `total_travel_minutes` of a successful result. -/
def RouteOutput.totalMinutes? : RouteOutput → Option ℚ
  | .journey j => some j.total_travel_minutes
  | .trivialRoute t => some t.total_travel_minutes
  | .errObj _ _ => none

/-- The journey's top-level `arrival_time`, if a journey. -/
def RouteOutput.arrivalTime? : RouteOutput → Option (Option String)
  | .journey j => some j.arrival_time
  | _ => none

/-- The first emitted stop's `departure_time`, if a journey. -/
def RouteOutput.firstDeparture? : RouteOutput → Option (Option String)
  | .journey j => (j.detailed_route.head?).map (fun r => r.departure_time)
  | _ => none

/-- The `(stop_id, trip_id)` sequence of a journey's detailed route. -/
def RouteOutput.stopsAndTrips? : RouteOutput → Option (List (String × String))
  | .journey j => some (j.detailed_route.map (fun r => (r.stop_id, r.trip_id)))
  | _ => none

/-! ## Concrete feeds used by counterexamples and witnesses -/

/-- Feed A of spec §8: trips `T1` (A 08:00 → B 08:30/08:31 → C 09:15) and
`T2` (B 08:45 → D 09:10), service `S1` active on 20250101. -/
def feedAStops : Csv :=
  [[("stop_id", "A"), ("stop_name", "Stop A")],
   [("stop_id", "B"), ("stop_name", "Stop B")],
   [("stop_id", "C"), ("stop_name", "Stop C")],
   [("stop_id", "D"), ("stop_name", "Stop D")]]

def feedAStopTimes : Csv :=
  [[("trip_id", "T1"), ("stop_id", "A"), ("stop_sequence", "0"),
    ("arrival_time", "08:00:00"), ("departure_time", "08:00:00")],
   [("trip_id", "T1"), ("stop_id", "B"), ("stop_sequence", "1"),
    ("arrival_time", "08:30:00"), ("departure_time", "08:31:00")],
   [("trip_id", "T1"), ("stop_id", "C"), ("stop_sequence", "2"),
    ("arrival_time", "09:15:00"), ("departure_time", "09:15:00")],
   [("trip_id", "T2"), ("stop_id", "B"), ("stop_sequence", "0"),
    ("arrival_time", "08:45:00"), ("departure_time", "08:45:00")],
   [("trip_id", "T2"), ("stop_id", "D"), ("stop_sequence", "1"),
    ("arrival_time", "09:10:00"), ("departure_time", "09:10:00")]]

def feedATrips : Csv :=
  [[("trip_id", "T1"), ("route_id", "R1"), ("service_id", "S1"),
    ("trip_headsign", "to C"), ("trip_short_name", "t1")],
   [("trip_id", "T2"), ("route_id", "R2"), ("service_id", "S1"),
    ("trip_headsign", "to D"), ("trip_short_name", "t2")]]

def feedARoutes : Csv :=
  [[("route_id", "R1"), ("route_short_name", "L1"),
    ("route_long_name", "Line one"), ("route_type", "2")],
   [("route_id", "R2"), ("route_short_name", "L2"),
    ("route_long_name", "Line two"), ("route_type", "2")]]

def feedACalendar : Csv :=
  [[("service_id", "S1"), ("date", "20250101"), ("exception_type", "1")]]

/-- Feed A laid out under the default data directory. -/
def fsA : FileSystem :=
  fsOfList
    [(pathJoin DATA_DIR_DEFAULT "stops.csv", feedAStops),
     (pathJoin DATA_DIR_DEFAULT "stop_times.csv", feedAStopTimes),
     (pathJoin DATA_DIR_DEFAULT "trips.csv", feedATrips),
     (pathJoin DATA_DIR_DEFAULT "routes.csv", feedARoutes),
     (pathJoin DATA_DIR_DEFAULT "calendar_dates.csv", feedACalendar)]

/-- Feed for C6: one trip departing exactly at midnight.
`T1`: A (00:00:00 → 00:00:00), B (01:00:00 → 01:00:00). -/
def feedMidnightStopTimes : Csv :=
  [[("trip_id", "T1"), ("stop_id", "A"), ("stop_sequence", "0"),
    ("arrival_time", "00:00:00"), ("departure_time", "00:00:00")],
   [("trip_id", "T1"), ("stop_id", "B"), ("stop_sequence", "1"),
    ("arrival_time", "01:00:00"), ("departure_time", "01:00:00")]]

def fsMidnight : FileSystem :=
  fsOfList
    [(pathJoin DATA_DIR_DEFAULT "stops.csv", feedAStops),
     (pathJoin DATA_DIR_DEFAULT "stop_times.csv", feedMidnightStopTimes),
     (pathJoin DATA_DIR_DEFAULT "trips.csv", feedATrips),
     (pathJoin DATA_DIR_DEFAULT "routes.csv", feedARoutes),
     (pathJoin DATA_DIR_DEFAULT "calendar_dates.csv", feedACalendar)]

/-- Feed for C4: trip `T1` visits A (08:00), then a row with undefined
(`nan`) times at B, then C (08:30). -/
def feedSkipStopTimes : Csv :=
  [[("trip_id", "T1"), ("stop_id", "A"), ("stop_sequence", "0"),
    ("arrival_time", "08:00:00"), ("departure_time", "08:00:00")],
   [("trip_id", "T1"), ("stop_id", "B"), ("stop_sequence", "1"),
    ("arrival_time", "nan"), ("departure_time", "nan")],
   [("trip_id", "T1"), ("stop_id", "C"), ("stop_sequence", "2"),
    ("arrival_time", "08:30:00"), ("departure_time", "08:30:00")]]

def fsSkip : FileSystem :=
  fsOfList
    [(pathJoin DATA_DIR_DEFAULT "stops.csv", feedAStops),
     (pathJoin DATA_DIR_DEFAULT "stop_times.csv", feedSkipStopTimes),
     (pathJoin DATA_DIR_DEFAULT "trips.csv", feedATrips),
     (pathJoin DATA_DIR_DEFAULT "routes.csv", feedARoutes),
     (pathJoin DATA_DIR_DEFAULT "calendar_dates.csv", feedACalendar)]

/-- The graph Feed-for-C4 builds (after its successful ingest). -/
def skipGraph? : Option Graph :=
  match load_stops (pathJoin DATA_DIR_DEFAULT "stops.csv")
      (fsSkip (pathJoin DATA_DIR_DEFAULT "stops.csv")),
    load_stop_times_by_trip (pathJoin DATA_DIR_DEFAULT "stop_times.csv")
      (fsSkip (pathJoin DATA_DIR_DEFAULT "stop_times.csv")) with
  | .ok stops, .ok trips =>
    match build_transit_graph fsSkip stops trips
        (load_routes_info (fsSkip (pathJoin DATA_DIR_DEFAULT "routes.csv")))
        (load_trips_info (fsSkip (pathJoin DATA_DIR_DEFAULT "trips.csv")))
        28800 "20250101" with
    | .ok (G, _) => some G
    | .error _ => none
  | _, _ => none

/-- Feed for C8: a stop-time row whose `stop_sequence` is present but not
an integer. -/
def feedBadSeqStopTimes : Csv :=
  [[("trip_id", "T1"), ("stop_id", "A"), ("stop_sequence", "0"),
    ("arrival_time", "08:00:00"), ("departure_time", "08:00:00")],
   [("trip_id", "T1"), ("stop_id", "B"), ("stop_sequence", "x"),
    ("arrival_time", "08:30:00"), ("departure_time", "08:30:00")]]

def fsBadSeq : FileSystem :=
  fsOfList
    [(pathJoin DATA_DIR_DEFAULT "stops.csv", feedAStops),
     (pathJoin DATA_DIR_DEFAULT "stop_times.csv", feedBadSeqStopTimes),
     (pathJoin DATA_DIR_DEFAULT "trips.csv", feedATrips),
     (pathJoin DATA_DIR_DEFAULT "routes.csv", feedARoutes),
     (pathJoin DATA_DIR_DEFAULT "calendar_dates.csv", feedACalendar)]

/-- Feed A with the four query tables under `other`, calendar at the
default path — the layout `compute_route` actually consults when
`data_dir = "other"`. -/
def fsOtherDir : FileSystem :=
  fsOfList
    [(pathJoin "other" "stops.csv", feedAStops),
     (pathJoin "other" "stop_times.csv", feedAStopTimes),
     (pathJoin "other" "trips.csv", feedATrips),
     (pathJoin "other" "routes.csv", feedARoutes),
     (pathJoin DATA_DIR_DEFAULT "calendar_dates.csv", feedACalendar)]

/-- Same, but the calendar sits in the query's own directory instead of
the default one. -/
def fsOtherDirLocalCal : FileSystem :=
  fsOfList
    [(pathJoin "other" "stops.csv", feedAStops),
     (pathJoin "other" "stop_times.csv", feedAStopTimes),
     (pathJoin "other" "trips.csv", feedATrips),
     (pathJoin "other" "routes.csv", feedARoutes),
     (pathJoin "other" "calendar_dates.csv", feedACalendar)]

deriving instance DecidableEq for Except

/-- `s.startswith(p)` on the underlying character lists (the library
`String.startsWith` does not kernel-reduce). -/
def strStarts (s p : String) : Bool := p.data.isPrefixOf s.data

/-- A two-node graph used to instantiate the search theorem: one trip
`T1` visiting stop `A` (dep 100) then stop `B` (arr 160). -/
def wAttrs (sid : String) (arr dep idx : Nat) : NodeAttrs :=
  ⟨sid, "T1", "R1", arr, dep, idx, sid, "L1", "", "", "", "20250101"⟩

def wGraph : Graph :=
  ⟨[("n1", wAttrs "A" 100 100 0), ("n2", wAttrs "B" 160 160 1)],
    [(("n1", "n2"), .in_vehicle 60 "T1")]⟩

def wSd : Dict (List (String × Nat)) :=
  [("A", [("n1", 100)]), ("B", [("n2", 160)])]

/-- What the source guarantees for every in-vehicle edge of the built
graph: the edge joins two *emitted* rows `i < j` of one relevant trip —
with every row strictly between them *not* emitted (skipped rows are
spanned, the chain is not broken) — and its weight is the arrival of row
`j` minus the departure of row `i`, non-negative. -/
def inVehicleEdgeOk (start : Nat) (rel : Dict (List Row))
    (e : (String × String) × EdgeData) : Prop :=
  ∀ w t, e.2 = EdgeData.in_vehicle w t →
    ∃ rows i j ru rv su sv au du av dv,
      (t, rows) ∈ rel ∧
      rows[i]? = some ru ∧ rows[j]? = some rv ∧ i < j ∧
      emittedRow start ru = some (au, du) ∧
      emittedRow start rv = some (av, dv) ∧
      (∀ k r, i < k → k < j → rows[k]? = some r →
        emittedRow start r = none) ∧
      rowGet? ru "stop_id" = some su ∧ rowGet? rv "stop_id" = some sv ∧
      e.1.1 = mkNodeId su t i ∧ e.1.2 = mkNodeId sv t j ∧
      w = (av : Int) - (du : Int) ∧ 0 ≤ w

/-- Loop invariant for the per-trip walk: `prev` is the last *emitted*
row's node (with its departure), and no row between it and the cursor is
emitted; with no emitted row so far, `prev` is `none`. -/
def prevOk (start : Nat) (tid : String) (rows : List Row) (idx : Nat) :
    Option (String × Nat) → Prop
  | none =>
    ∀ k r, k < idx → rows[k]? = some r → emittedRow start r = none
  | some (pid, pdep) =>
    ∃ i ru su a, i < idx ∧ rows[i]? = some ru ∧
      emittedRow start ru = some (a, pdep) ∧
      rowGet? ru "stop_id" = some su ∧ pid = mkNodeId su tid i ∧
      (∀ k r, i < k → k < idx → rows[k]? = some r →
        emittedRow start r = none)

/-- The loaded tables and built graph of the skip feed, written out — the
build's output is checked against them by evaluation. -/
def skipStops : Dict Stop :=
  [("A", ⟨"A", "Stop A", 0, 0⟩), ("B", ⟨"B", "Stop B", 0, 0⟩),
   ("C", ⟨"C", "Stop C", 0, 0⟩), ("D", ⟨"D", "Stop D", 0, 0⟩)]

def skipTrips : Dict (List Row) := [("T1", feedSkipStopTimes)]

def skipRoutes : Dict RouteInfo :=
  [("R1", ⟨"L1", "Line one", "2"⟩), ("R2", ⟨"L2", "Line two", "2"⟩)]

def skipTripRoutes : Dict TripInfo :=
  [("T1", ⟨"R1", "S1", "to C", "t1"⟩), ("T2", ⟨"R2", "S1", "to D", "t2"⟩)]

def skipG : Graph :=
  ⟨[("A_T1_0", ⟨"A", "T1", "R1", 28800, 28800, 0, "Stop A", "L1", "Line one",
      "to C", "t1", "20250101"⟩),
    ("C_T1_2", ⟨"C", "T1", "R1", 30600, 30600, 2, "Stop C", "L1", "Line one",
      "to C", "t1", "20250101"⟩)],
   [(("A_T1_0", "C_T1_2"), .in_vehicle 1800 "T1")]⟩

def skipSd : Dict (List (String × Nat)) :=
  [("A", [("A_T1_0", 28800)]), ("B", []), ("C", [("C_T1_2", 30600)]), ("D", [])]

/-! ## Relations used by the missing-table analysis -/

/-- Does an `Except`-wrapped engine result answer with a journey?
(`getRoute`'s catch-all turns every raise into an error object, which
answers nothing.) -/
def answersExcept : Except PyErr RouteOutput → Bool
  | .ok r => answersJourney r
  | .error _ => false

/-- Two graphs agreeing on everything the routing pipeline inspects:
equal edge dicts, and node dicts with equal keys and pointwise-equal
*core* attributes — only `route_name` and `route_description`, the two
decorations taken from `routes.csv`, may differ. -/
def GRel (G G' : Graph) : Prop :=
  G.edges = G'.edges ∧
  G.nodes.map (fun p => (p.1, p.2.core)) =
    G'.nodes.map (fun p => (p.1, p.2.core))

/-- `GRel` plus equal `stop_departures`, on build states. -/
def BRel (s s' : BuildState) : Prop := GRel s.G s'.G ∧ s.sd = s'.sd

/-- `BRel` through the `Except` layer: equal errors, or related states. -/
def SRel : Except PyErr BuildState → Except PyErr BuildState → Prop
  | .error e, .error e' => e = e'
  | .ok s, .ok s' => BRel s s'
  | _, _ => False

/-- The build-output relation: equal errors, or related graphs with equal
`stop_departures`. -/
def BORel : Except PyErr (Graph × Dict (List (String × Nat))) →
    Except PyErr (Graph × Dict (List (String × Nat))) → Prop
  | .error e, .error e' => e = e'
  | .ok p, .ok p' => GRel p.1 p'.1 ∧ p.2 = p'.2
  | _, _ => False

/-! ## Lemmas about time parsing and formatting -/

theorem digitChar_isDigit {d : Nat} (h : d < 10) :
    (Nat.digitChar d).isDigit = true := by
  interval_cases d <;> decide

theorem digitVal_digitChar {d : Nat} (h : d < 10) :
    digitVal (Nat.digitChar d) = d := by
  interval_cases d <;> decide

theorem digitChar_ne_colon {d : Nat} (h : d < 10) :
    Nat.digitChar d ≠ ':' := by
  interval_cases d <;> decide

theorem digitChar_not_ws {d : Nat} (h : d < 10) :
    isPyWs (Nat.digitChar d) = false := by
  interval_cases d <;> decide

theorem pad2_length {n : Nat} (_h : n < 100) : (pad2 n).length = 2 := by
  unfold pad2
  split <;> rfl

theorem pad2_all_digit {n : Nat} (h : n < 100) :
    (pad2 n).all Char.isDigit = true := by
  unfold pad2
  split
  · next h10 =>
    simp [List.all_cons, digitChar_isDigit h10]
  · next h10 =>
    have h1 : n / 10 < 10 := by omega
    have h2 : n % 10 < 10 := by omega
    simp [List.all_cons, digitChar_isDigit h1, digitChar_isDigit h2]

theorem natOfDigits_pad2 {n : Nat} (h : n < 100) :
    natOfDigits (pad2 n) = n := by
  unfold pad2
  split
  · next h10 =>
    show (0 * 10 + digitVal '0') * 10 + digitVal (Nat.digitChar n) = n
    have h0 : digitVal '0' = 0 := rfl
    rw [digitVal_digitChar h10, h0]
    omega
  · next h10 =>
    have h1 : n / 10 < 10 := by omega
    have h2 : n % 10 < 10 := by omega
    show (0 * 10 + digitVal (Nat.digitChar (n / 10))) * 10 +
        digitVal (Nat.digitChar (n % 10)) = n
    rw [digitVal_digitChar h1, digitVal_digitChar h2]
    omega

theorem pad2_no_colon {n : Nat} (h : n < 100) : ':' ∉ pad2 n := by
  unfold pad2
  split
  · next h10 =>
    intro hm
    simp only [List.mem_cons, List.not_mem_nil, or_false] at hm
    rcases hm with h1 | h2
    · exact absurd h1 (by decide)
    · exact digitChar_ne_colon h10 h2.symm
  · next h10 =>
    have h1 : n / 10 < 10 := by omega
    have h2 : n % 10 < 10 := by omega
    intro hm
    simp only [List.mem_cons, List.not_mem_nil, or_false] at hm
    rcases hm with ha | hb
    · exact digitChar_ne_colon h1 ha.symm
    · exact digitChar_ne_colon h2 hb.symm

theorem pad2_not_ws {n : Nat} (h : n < 100) :
    ∀ c ∈ pad2 n, isPyWs c = false := by
  unfold pad2
  split
  · next h10 =>
    intro c hc
    simp only [List.mem_cons, List.not_mem_nil, or_false] at hc
    rcases hc with h1 | h2
    · rw [h1]; decide
    · rw [h2]; exact digitChar_not_ws h10
  · next h10 =>
    have h1 : n / 10 < 10 := by omega
    have h2 : n % 10 < 10 := by omega
    intro c hc
    simp only [List.mem_cons, List.not_mem_nil, or_false] at hc
    rcases hc with ha | hb
    · rw [ha]; exact digitChar_not_ws h1
    · rw [hb]; exact digitChar_not_ws h2

theorem dropWhile_eq_self_of_none {p : Char → Bool} {l : List Char}
    (h : ∀ c ∈ l, p c = false) : l.dropWhile p = l := by
  cases l with
  | nil => rfl
  | cons a t =>
    have := h a (by simp)
    simp [List.dropWhile, this]

theorem trimChars_eq_self {l : List Char} (h : ∀ c ∈ l, isPyWs c = false) :
    trimChars l = l := by
  unfold trimChars
  rw [dropWhile_eq_self_of_none h,
    dropWhile_eq_self_of_none (by intro c hc; exact h c (List.mem_reverse.mp hc)),
    List.reverse_reverse]

theorem splitOnChar_no_sep {sep : Char} {a : List Char} (h : sep ∉ a) :
    splitOnChar sep a = [a] := by
  induction a with
  | nil => rfl
  | cons c t ih =>
    have hc : ¬(c = sep) := by
      intro hcs
      exact h (by simp [hcs])
    have ht : sep ∉ t := fun hm => h (by simp [hm])
    simp only [splitOnChar, if_neg hc, ih ht]

theorem splitOnChar_append_cons {sep : Char} (a : List Char) (t : List Char)
    (h : sep ∉ a) :
    splitOnChar sep (a ++ (sep :: t)) = a :: splitOnChar sep t := by
  induction a with
  | nil => simp [splitOnChar]
  | cons c b ih =>
    have hc : ¬(c = sep) := by
      intro hcs
      exact h (by simp [hcs])
    have hb : sep ∉ b := fun hm => h (by simp [hm])
    have hrec : splitOnChar sep (b.append (sep :: t)) = b :: splitOnChar sep t :=
      ih hb
    show (if c = sep then _ else _) = _
    rw [if_neg hc]
    show (match splitOnChar sep (b.append (sep :: t)) with
      | [] => [[c]]
      | f :: rest => (c :: f) :: rest) = (c :: b) :: splitOnChar sep t
    rw [hrec]

theorem parseClockField_pad2_le {n hi : Nat} (h : n < 100) (hle : n ≤ hi) :
    parseClockField (pad2 n) hi = some n := by
  unfold parseClockField
  rw [if_pos, natOfDigits_pad2 h]
  refine ⟨?_, pad2_all_digit h, by rw [pad2_length h],
    Or.inr (by rw [natOfDigits_pad2 h]; exact hle)⟩
  intro hnil
  have := pad2_length h
  rw [hnil] at this
  simp at this

theorem parseClockField_pad2_gt {n hi : Nat} (h : n < 100) (hgt : hi < n) :
    parseClockField (pad2 n) hi = none := by
  unfold parseClockField
  rw [if_neg]
  intro hcond
  rcases hcond with ⟨-, -, -, h1 | h2⟩
  · rw [pad2_length h] at h1
    omega
  · rw [natOfDigits_pad2 h] at h2
    omega

/-- The character list of `mkClock`. -/
theorem mkClock_data (h m s : Nat) :
    (mkClock h m s).data = pad2 h ++ (':' :: (pad2 m ++ (':' :: pad2 s))) := rfl

theorem mkClock_data_ne_nil (h m s : Nat) : (mkClock h m s).data ≠ [] := by
  rw [mkClock_data]
  intro heq
  rcases List.append_eq_nil.mp heq with ⟨-, h2⟩
  exact List.cons_ne_nil _ _ h2

theorem mkClock_length {h m s : Nat} (hh : h < 100) (hm : m < 100)
    (hs : s < 100) : (mkClock h m s).data.length = 8 := by
  rw [mkClock_data]
  simp [pad2_length hh, pad2_length hm, pad2_length hs]

theorem mkClock_not_nan {h m s : Nat} (hh : h < 100) (hm : m < 100)
    (hs : s < 100) : (mkClock h m s).data.map lowerChar ≠ "nan".data := by
  intro heq
  have := congrArg List.length heq
  rw [List.length_map, mkClock_length hh hm hs] at this
  simp at this

theorem mkClock_trim {h m s : Nat} (hh : h < 100) (hm : m < 100)
    (hs : s < 100) : trimChars (mkClock h m s).data = (mkClock h m s).data := by
  apply trimChars_eq_self
  rw [mkClock_data]
  intro c hc
  simp only [List.mem_append, List.mem_cons] at hc
  rcases hc with h1 | h2 | h3 | h4 | h5
  · exact pad2_not_ws hh c h1
  · rw [h2]; decide
  · exact pad2_not_ws hm c h3
  · rw [h4]; decide
  · exact pad2_not_ws hs c h5

theorem mkClock_split {h m s : Nat} (hh : h < 100) (hm : m < 100)
    (hs : s < 100) :
    splitOnChar ':' (trimChars (mkClock h m s).data) =
      [pad2 h, pad2 m, pad2 s] := by
  rw [mkClock_trim hh hm hs, mkClock_data,
    splitOnChar_append_cons (pad2 h) _ (pad2_no_colon hh),
    splitOnChar_append_cons (pad2 m) _ (pad2_no_colon hm),
    splitOnChar_no_sep (pad2_no_colon hs)]

/-- A well-formed clock string parses back to its seconds value. -/
theorem parse_mkClock {h m s : Nat} (hh : h < 24) (hm : m < 60) (hs : s < 60) :
    parse_time_to_seconds (mkClock h m s) = some (h * 3600 + m * 60 + s) := by
  have hh' : h < 100 := by omega
  have hm' : m < 100 := by omega
  have hs' : s < 100 := by omega
  unfold parse_time_to_seconds
  have hne : ¬((mkClock h m s).data = [] ∨
      (mkClock h m s).data.map lowerChar = "nan".data) := by
    push_neg
    exact ⟨mkClock_data_ne_nil h m s, mkClock_not_nan hh' hm' hs'⟩
  rw [if_neg hne, mkClock_split hh' hm' hs']
  show (parseClockField (pad2 h) 23).bind _ = _
  rw [parseClockField_pad2_le hh' (by omega)]
  show (parseClockField (pad2 m) 59).bind _ = _
  rw [parseClockField_pad2_le hm' (by omega)]
  show (parseClockField (pad2 s) 61).bind _ = _
  rw [parseClockField_pad2_le hs' (by omega)]
  show (if s ≤ 59 then some (h * 3600 + m * 60 + s) else none) = _
  rw [if_pos (by omega)]

/-- A clock string whose (two-digit) hour field is 24 or more is rejected
by the parser. -/
theorem parse_mkClock_big_hour {h m s : Nat} (hh24 : 24 ≤ h) (hh : h < 100)
    (hm : m < 100) (hs : s < 100) :
    parse_time_to_seconds (mkClock h m s) = none := by
  unfold parse_time_to_seconds
  have hne : ¬((mkClock h m s).data = [] ∨
      (mkClock h m s).data.map lowerChar = "nan".data) := by
    push_neg
    exact ⟨mkClock_data_ne_nil h m s, mkClock_not_nan hh hm hs⟩
  rw [if_neg hne, mkClock_split hh hm hs]
  show (parseClockField (pad2 h) 23).bind _ = _
  rw [parseClockField_pad2_gt hh (by omega)]
  rfl

/-! ## C9 — time-format round trip -/

/-- C9: for every integer `s ∈ [0, 86400)`,
`parse_time_to_seconds(seconds_to_time(s)) = s`. -/
theorem seconds_to_time_roundtrip (s : Nat) (h : s < 86400) :
    (seconds_to_time s).bind parse_time_to_seconds = some s := by
  unfold seconds_to_time
  rw [if_neg (by omega)]
  show parse_time_to_seconds (mkClock (s / 3600) (s % 3600 / 60) (s % 60)) = _
  rw [parse_mkClock (by omega) (by omega) (by omega)]
  congr 1
  omega

/-- Witness for C9 at `s = 3661` (= `01:01:01`). -/
theorem seconds_to_time_roundtrip_witness :
    3661 < 86400 ∧ (seconds_to_time 3661).bind parse_time_to_seconds = some 3661 :=
  ⟨by decide, seconds_to_time_roundtrip 3661 (by decide)⟩

/-! ## C3 — hours ≥ 24 are *not* accepted by the time parser -/

/-- C3 counterexample: the claim says `"25:00:00"` parses literally to
`25*3600 = 90000`; in fact `strptime("%H:%M:%S")` rejects any hour ≥ 24
and the parser yields the absent sentinel. -/
theorem parse_25_claim_false :
    parse_time_to_seconds "25:00:00" = none ∧
      parse_time_to_seconds "25:00:00" ≠ some 90000 := by
  constructor
  · decide
  · decide

/-- C3 amended: every `H:MM:SS` string whose (two-digit) hour field
denotes 24 or more is rejected by `parse_time_to_seconds` (the absent
sentinel), so such stop-time values do not stay on the timeline. -/
theorem parse_rejects_hour_ge_24 (h m s : Nat) (h24 : 24 ≤ h) (hh : h < 100)
    (hm : m < 100) (hs : s < 100) :
    parse_time_to_seconds (mkClock h m s) = none :=
  parse_mkClock_big_hour h24 hh hm hs

/-- Witness for the amended C3 at `"25:00:00"`. -/
theorem parse_rejects_hour_ge_24_witness :
    (24 ≤ 25 ∧ 25 < 100 ∧ 0 < 100) ∧
      parse_time_to_seconds (mkClock 25 0 0) = none :=
  ⟨⟨by decide, by decide, by decide⟩,
    parse_rejects_hour_ge_24 25 0 0 (by decide) (by decide) (by decide) (by decide)⟩

/-! ## C2 — an absent origin string is *not* reported as
`Origin stop not found` -/

/-- C2 (code bug): on Feed A, `getRoute("X", "A", ...)` with `X` absent
from the catalogue returns a `No route found ...` error object — the
`origin_id is None` guard never fires for a string, so the
`Origin stop not found` message is unreachable for absent stop ids. -/
theorem absent_origin_reports_no_route :
    (getRoute fsA (some "X") (some "A") "08:00:00" "20250101"
        DATA_DIR_DEFAULT).errorMsg? =
      some "No route found from X to A after 08:00:00 on 20250101" ∧
    strStarts "No route found from X to A after 08:00:00 on 20250101"
        "No route found" = true ∧
    strStarts "No route found from X to A after 08:00:00 on 20250101"
        "Origin stop not found" = false := by
  refine ⟨by decide, by decide, by decide⟩

/-! ## C7 — identical endpoints -/

/-- Reduction helpers for the `Except` do-blocks. -/
theorem exceptBind_ok {α β : Type} (a : α) (f : α → Except PyErr β) :
    ((Except.ok a : Except PyErr α) >>= f) = f a := rfl

/-- C7 counterexample: on Feed A the claim's "any schedule content,
including X absent" fails — `getRoute("X", "X", ...)` hits
`stops["X"]` (`KeyError`) and returns an error object, not the trivial
journey. -/
theorem identical_absent_endpoint_errors :
    getRoute fsA (some "X") (some "X") "08:00:00" "20250101" DATA_DIR_DEFAULT =
      .errObj "'X'" true := by
  decide

/-- C7 amended: whenever the stops and stop-times tables load
successfully and `X` *is* in the stop catalogue, `getRoute(X, X, T, D)`
returns the trivial journey — zero minutes, one synthetic stop whose
arrival and departure equal `T`, note `"Origin equals destination"` —
regardless of the remaining schedule content. -/
theorem identical_endpoints_trivial (fs : FileSystem) (X T D dir : String)
    (S : Dict Stop) (TT : Dict (List Row)) (st : Stop)
    (h1 : load_stops (pathJoin dir "stops.csv") (fs (pathJoin dir "stops.csv")) =
      .ok S)
    (h2 : load_stop_times_by_trip (pathJoin dir "stop_times.csv")
      (fs (pathJoin dir "stop_times.csv")) = .ok TT)
    (h3 : dget? S X = some st) :
    getRoute fs (some X) (some X) T D dir =
      .trivialRoute ⟨X, X, T, 0, X, st.name, T, T, "Origin equals destination",
        "Origin equals destination"⟩ := by
  unfold getRoute compute_route
  rw [h1, exceptBind_ok, h2, exceptBind_ok]
  show (match (if X = X then _ else _ : Except PyErr RouteOutput) with
    | .ok r => r | .error e => .errObj e.toMessage true) = _
  rw [if_pos rfl, h3]

/-- Witness for the amended C7: Feed A with `X = "A"`. -/
theorem identical_endpoints_trivial_witness :
    getRoute fsA (some "A") (some "A") "08:00:00" "20250101" DATA_DIR_DEFAULT =
      .trivialRoute ⟨"A", "A", "08:00:00", 0, "A", "Stop A", "08:00:00",
        "08:00:00", "Origin equals destination", "Origin equals destination"⟩ :=
  identical_endpoints_trivial fsA "A" "08:00:00" "20250101" DATA_DIR_DEFAULT
    [("A", ⟨"A", "Stop A", 0, 0⟩), ("B", ⟨"B", "Stop B", 0, 0⟩),
      ("C", ⟨"C", "Stop C", 0, 0⟩), ("D", ⟨"D", "Stop D", 0, 0⟩)]
    [("T1", feedAStopTimes.take 3), ("T2", feedAStopTimes.drop 3)]
    ⟨"A", "Stop A", 0, 0⟩ (by decide) (by decide) (by decide)

/-! ## C6 — totals and the midnight departure -/

/-- C6 counterexample: on the midnight feed the journey departs at
`00:00:00` and arrives at `01:00:00`, so the claim demands
`(3600 − 0)/60 = 60.0` minutes; the code's `if start_secs` truthiness
guard returns `0` instead. -/
theorem midnight_total_zero :
    (getRoute fsMidnight (some "A") (some "B") "00:00:00" "20250101"
        DATA_DIR_DEFAULT).totalMinutes? = some 0 ∧
    (getRoute fsMidnight (some "A") (some "B") "00:00:00" "20250101"
        DATA_DIR_DEFAULT).arrivalTime? = some (some "01:00:00") ∧
    (getRoute fsMidnight (some "A") (some "B") "00:00:00" "20250101"
        DATA_DIR_DEFAULT).firstDeparture? = some (some "00:00:00") ∧
    pyRound1 ((3600 : Int) - 0) = 60 ∧ (0 : ℚ) ≠ 60 := by
  refine ⟨by decide, by decide, by decide, ?_, by norm_num⟩
  norm_num [pyRound1, Int.fdiv]

/-- C6 amended: for every journey produced by `path_to_detailed_route`,
`total_travel_minutes` is `(arrival_secs of the last cleaned-path node −
departure_secs of the first cleaned-path node) / 60` rounded to one
decimal — *except* when the first cleaned-path node departs exactly at
00:00:00 (`departure_secs = 0`), in which case the total is `0`; the
journey's `arrival_time` is the last cleaned-path node's arrival. -/
theorem totals_from_cleaned_path (G : Graph) (path : List String)
    (stops : Dict Stop) (origin_id dest_id start_time date : String)
    (h : path ≠ []) :
    (path_to_detailed_route G path stops origin_id dest_id start_time
        date).totalMinutes? =
      some (if (nodeAttr G ((cleanPath G path).headD "")).departure_time = 0
        then 0
        else pyRound1
          (((nodeAttr G ((cleanPath G path).getLastD "")).arrival_time : Int) -
            ((nodeAttr G ((cleanPath G path).headD "")).departure_time : Int))) ∧
    (path_to_detailed_route G path stops origin_id dest_id start_time
        date).arrivalTime? =
      some (seconds_to_time
        (nodeAttr G ((cleanPath G path).getLastD "")).arrival_time) := by
  unfold path_to_detailed_route
  rw [if_neg h]
  exact ⟨rfl, rfl⟩

/-- Witness for the amended C6 on the two-node graph. -/
theorem totals_from_cleaned_path_witness :
    (["n1", "n2"] : List String) ≠ [] ∧
    ((path_to_detailed_route wGraph ["n1", "n2"] [] "A" "B" "t" "d").totalMinutes? =
      some (if (nodeAttr wGraph ((cleanPath wGraph ["n1", "n2"]).headD
          "")).departure_time = 0 then 0
        else pyRound1
          (((nodeAttr wGraph ((cleanPath wGraph ["n1", "n2"]).getLastD
              "")).arrival_time : Int) -
            ((nodeAttr wGraph ((cleanPath wGraph ["n1", "n2"]).headD
              "")).departure_time : Int))) ∧
    (path_to_detailed_route wGraph ["n1", "n2"] [] "A" "B" "t" "d").arrivalTime? =
      some (seconds_to_time
        (nodeAttr wGraph ((cleanPath wGraph ["n1", "n2"]).getLastD
          "")).arrival_time)) :=
  ⟨by decide,
    totals_from_cleaned_path wGraph ["n1", "n2"] [] "A" "B" "t" "d" (by decide)⟩

/-! ## C8 — unparseable stop_sequence -/

/-- C8 counterexample: a `stop_sequence` of `"x"` is present but not an
integer; ingest raises `ValueError` (it does not default to 0) and the
query returns an error object instead of a journey. -/
theorem bad_stop_sequence_fails_query :
    load_stop_times_by_trip (pathJoin DATA_DIR_DEFAULT "stop_times.csv")
        (fsBadSeq (pathJoin DATA_DIR_DEFAULT "stop_times.csv")) =
      .error (.valueError "invalid literal for int() with base 10: 'x'") ∧
    getRoute fsBadSeq (some "A") (some "B") "08:00:00" "20250101"
        DATA_DIR_DEFAULT =
      .errObj "invalid literal for int() with base 10: 'x'" true := by
  exact ⟨by decide, by decide⟩

/-! ## C4 — skipped rows do *not* break the in-vehicle chain -/

/-- C4 counterexample: in the skip feed, row 1 of trip `T1` has `nan`
times and is skipped; no node is built for it, yet an in-vehicle edge
runs from row 0's node straight to row 2's node, spanning the skipped
row — and the emitted journey's two adjacent same-trip stops come from
rows 0 and 2, which are not consecutive in the stop-time table. -/
theorem skipped_row_spanned_by_edge :
    (skipGraph?.map (fun G => lookupEdge G "A_T1_0" "C_T1_2")) =
      some (some (.in_vehicle 1800 "T1")) ∧
    (skipGraph?.map (fun G => (dget? G.nodes "B_T1_1").isSome)) = some false ∧
    (getRoute fsSkip (some "A") (some "C") "08:00:00" "20250101"
        DATA_DIR_DEFAULT).stopsAndTrips? = some [("A", "T1"), ("C", "T1")] := by
  refine ⟨by decide, by decide, by decide⟩

theorem exceptBind_err {α β : Type} (e : PyErr) (f : α → Except PyErr β) :
    ((Except.error e : Except PyErr α) >>= f) = .error e := rfl

theorem dappendList_rows_in {α : Type} {P : α → Prop} {d : Dict (List α)}
    {k : String} {v : α} (hd : ∀ q ∈ d, ∀ x ∈ q.2, P x) (hv : P v) :
    ∀ q ∈ dappendList k v d, ∀ x ∈ q.2, P x := by
  induction d with
  | nil =>
    intro q hq x hx
    simp only [dappendList, List.mem_singleton] at hq
    subst hq
    simp only [List.mem_singleton] at hx
    subst hx
    exact hv
  | cons p rest ih =>
    rcases p with ⟨k', l⟩
    intro q hq x hx
    simp only [dappendList] at hq
    split at hq
    · rcases List.mem_cons.mp hq with hq1 | hq2
      · subst hq1
        rcases List.mem_append.mp hx with h1 | h2
        · exact hd (k', l) (by simp) x h1
        · simp only [List.mem_singleton] at h2
          subst h2
          exact hv
      · exact hd q (List.mem_cons_of_mem _ hq2) x hx
    · rcases List.mem_cons.mp hq with hq1 | hq2
      · subst hq1
        exact hd (k', l) (by simp) x hx
      · exact ih (fun q' hq' => hd q' (List.mem_cons_of_mem _ hq')) q hq2 x hx

theorem dappendList_mem_mono {α : Type} {d : Dict (List α)} {k : String}
    {v x : α} (h : ∃ q ∈ d, x ∈ q.2) : ∃ q ∈ dappendList k v d, x ∈ q.2 := by
  induction d with
  | nil => simp at h
  | cons p rest ih =>
    rcases p with ⟨k', l⟩
    rcases h with ⟨q, hq, hx⟩
    rcases List.mem_cons.mp hq with hq1 | hq2
    · simp only [dappendList]
      split
      · exact ⟨(k', l ++ [v]), by simp,
          List.mem_append_left _ (by rw [hq1] at hx; exact hx)⟩
      · exact ⟨(k', l), by simp, by rw [hq1] at hx; exact hx⟩
    · simp only [dappendList]
      split
      · exact ⟨q, List.mem_cons_of_mem _ hq2, hx⟩
      · rcases ih ⟨q, hq2, hx⟩ with ⟨q', hq', hx'⟩
        exact ⟨q', List.mem_cons_of_mem _ hq', hx'⟩

theorem dappendList_mem_self {α : Type} (d : Dict (List α)) (k : String)
    (v : α) : ∃ q ∈ dappendList k v d, v ∈ q.2 := by
  induction d with
  | nil => exact ⟨(k, [v]), by simp [dappendList], by simp⟩
  | cons p rest ih =>
    rcases p with ⟨k', l⟩
    unfold dappendList
    split
    · exact ⟨(k', l ++ [v]), by simp, List.mem_append_right _ (by simp)⟩
    · rcases ih with ⟨q, hq, hv⟩
      exact ⟨q, List.mem_cons_of_mem _ hq, hv⟩

theorem groupByTripAux_persist {rows : Csv} {acc g : Dict (List Row)}
    (h : groupByTripAux rows acc = .ok g) {x : Row}
    (hx : ∃ q ∈ acc, x ∈ q.2) : ∃ q ∈ g, x ∈ q.2 := by
  induction rows generalizing acc with
  | nil =>
    simp only [groupByTripAux] at h
    cases h
    exact hx
  | cons r rest ih =>
    simp only [groupByTripAux] at h
    cases hk : rowGet? r "trip_id" with
    | none => rw [hk] at h; cases h
    | some tid =>
      rw [hk] at h
      exact ih h (dappendList_mem_mono hx)

theorem groupByTripAux_mem {rows : Csv} {acc g : Dict (List Row)}
    (h : groupByTripAux rows acc = .ok g) :
    ∀ r ∈ rows, ∃ q ∈ g, r ∈ q.2 := by
  induction rows generalizing acc with
  | nil => simp
  | cons r rest ih =>
    intro x hx
    simp only [groupByTripAux] at h
    cases hk : rowGet? r "trip_id" with
    | none => rw [hk] at h; cases h
    | some tid =>
      rw [hk] at h
      rcases List.mem_cons.mp hx with hx1 | hx2
      · subst hx1
        exact groupByTripAux_persist h (dappendList_mem_self acc tid x)
      · exact ih h x hx2

theorem groupByTripAux_rows_in {P : Row → Prop} {rows : Csv}
    {acc g : Dict (List Row)} (hrows : ∀ r ∈ rows, P r)
    (hacc : ∀ q ∈ acc, ∀ x ∈ q.2, P x)
    (h : groupByTripAux rows acc = .ok g) : ∀ q ∈ g, ∀ x ∈ q.2, P x := by
  induction rows generalizing acc with
  | nil =>
    simp only [groupByTripAux] at h
    cases h
    exact hacc
  | cons r rest ih =>
    simp only [groupByTripAux] at h
    cases hk : rowGet? r "trip_id" with
    | none => rw [hk] at h; cases h
    | some tid =>
      rw [hk] at h
      exact ih (fun x hx => hrows x (List.mem_cons_of_mem _ hx))
        (dappendList_rows_in hacc (hrows r (by simp))) h

theorem sortTripRows_error_of_bad {l : List Row} {r : Row} (hr : r ∈ l)
    (hbad : stopSeqKey? r = none) : ∃ e, sortTripRows l = .error e := by
  unfold sortTripRows
  have : (l.find? (fun r => (stopSeqKey? r).isNone)).isSome := by
    rw [List.find?_isSome]
    exact ⟨r, hr, by rw [hbad]; rfl⟩
  cases hf : l.find? (fun r => (stopSeqKey? r).isNone) with
  | none => rw [hf] at this; cases this
  | some r' => exact ⟨_, rfl⟩

theorem sortTripRows_ok_of_good {l : List Row}
    (h : ∀ r ∈ l, (stopSeqKey? r).isSome) :
    sortTripRows l = .ok (sortByKey (fun r => (stopSeqKey? r).getD 0) l) := by
  unfold sortTripRows
  rw [List.find?_eq_none.mpr (by
    intro r hr
    have := h r hr
    cases hk : stopSeqKey? r with
    | none => rw [hk] at this; cases this
    | some v => simp [hk])]

theorem mem_insertByKey {α : Type} {key : α → Int} {x z : α} {l : List α}
    (h : z ∈ insertByKey key x l) : z = x ∨ z ∈ l := by
  induction l with
  | nil =>
    simp only [insertByKey, List.mem_singleton] at h
    exact Or.inl h
  | cons y ys ih =>
    unfold insertByKey at h
    split at h
    · rcases List.mem_cons.mp h with h1 | h2
      · exact Or.inr (by simp [h1])
      · rcases ih h2 with h3 | h4
        · exact Or.inl h3
        · exact Or.inr (List.mem_cons_of_mem _ h4)
    · rcases List.mem_cons.mp h with h1 | h2
      · exact Or.inl h1
      · exact Or.inr h2

theorem sortByKey_mem {α : Type} {key : α → Int} {z : α} {l : List α}
    (h : z ∈ sortByKey key l) : z ∈ l := by
  induction l with
  | nil => simp only [sortByKey] at h; exact h
  | cons x xs ih =>
    unfold sortByKey at h
    rcases mem_insertByKey h with h1 | h2
    · simp [h1]
    · exact List.mem_cons_of_mem _ (ih h2)

theorem sortByKey_const_zero {α : Type} {key : α → Int} {l : List α}
    (h : ∀ x ∈ l, key x = 0) : sortByKey key l = l := by
  induction l with
  | nil => rfl
  | cons x xs ih =>
    unfold sortByKey
    rw [ih (fun y hy => h y (List.mem_cons_of_mem _ hy))]
    cases xs with
    | nil => rfl
    | cons y ys =>
      unfold insertByKey
      rw [if_neg]
      rw [h y (by simp), h x (by simp)]
      omega

theorem sortAllTrips_ok_elem {g t : Dict (List Row)}
    (h : sortAllTrips g = .ok t) :
    ∀ q ∈ g, ∃ s, sortTripRows q.2 = .ok s := by
  induction g generalizing t with
  | nil => simp
  | cons p rest ih =>
    intro q hq
    rcases p with ⟨tid, l⟩
    simp only [sortAllTrips] at h
    cases hs : sortTripRows l with
    | error e => rw [hs, exceptBind_err] at h; cases h
    | ok s =>
      rw [hs, exceptBind_ok] at h
      cases hrest : sortAllTrips rest with
      | error e => rw [hrest, exceptBind_err] at h; cases h
      | ok t' =>
        rcases List.mem_cons.mp hq with h1 | h2
        · subst h1; exact ⟨s, hs⟩
        · exact ih hrest q h2

theorem sortAllTrips_id {g : Dict (List Row)}
    (h : ∀ q ∈ g, sortTripRows q.2 = .ok q.2) : sortAllTrips g = .ok g := by
  induction g with
  | nil => rfl
  | cons p rest ih =>
    rcases p with ⟨tid, l⟩
    simp only [sortAllTrips]
    rw [h (tid, l) (by simp), exceptBind_ok,
      ih (fun q hq => h q (List.mem_cons_of_mem _ hq)), exceptBind_ok]

/-- A present-but-unparseable `stop_sequence` makes ingest raise. -/
theorem load_stop_times_raises {p : String} {csv : Csv}
    (hbad : ∃ r ∈ csv, ∃ s, rowGet? r "stop_sequence" = some s ∧ pyInt? s = none) :
    ∃ e, load_stop_times_by_trip p (some csv) = .error e := by
  cases hload : load_stop_times_by_trip p (some csv) with
  | error e => exact ⟨e, rfl⟩
  | ok t =>
    exfalso
    simp only [load_stop_times_by_trip] at hload
    cases hg : groupByTrip csv with
    | error e => rw [hg, exceptBind_err] at hload; cases hload
    | ok g =>
      rw [hg, exceptBind_ok] at hload
      rcases hbad with ⟨r, hr, s, hks, hps⟩
      have hkey : stopSeqKey? r = none := by
        simp only [stopSeqKey?, hks]
        exact hps
      rcases groupByTripAux_mem hg r hr with ⟨q, hq, hrq⟩
      rcases sortAllTrips_ok_elem hload q hq with ⟨srt, hsrt⟩
      rcases sortTripRows_error_of_bad hrq hkey with ⟨e, he⟩
      rw [he] at hsrt
      cases hsrt

/-! ## C8 — the claim theorem -/

/-- C8 amended: a `stop_sequence` value that is *absent* defaults to sort
key 0 (an all-absent trip keeps its file order and ingest succeeds), but
a *present, unparseable* value raises `ValueError` during ingest and the
query returns an error object instead of a journey. -/
theorem stop_sequence_handling :
    (∀ (p : String) (csv : Csv),
      (∃ r ∈ csv, ∃ s, rowGet? r "stop_sequence" = some s ∧ pyInt? s = none) →
      ∃ e, load_stop_times_by_trip p (some csv) = .error e) ∧
    (∀ (fs : FileSystem) (dir : String) (o d : Option String) (T D : String)
        (csv : Csv), fs (pathJoin dir "stop_times.csv") = some csv →
      (∃ r ∈ csv, ∃ s, rowGet? r "stop_sequence" = some s ∧ pyInt? s = none) →
      ∃ m, getRoute fs o d T D dir = .errObj m true) ∧
    (∀ (p : String) (csv : Csv) (g : Dict (List Row)),
      (∀ r ∈ csv, rowGet? r "stop_sequence" = none) →
      groupByTrip csv = .ok g →
      load_stop_times_by_trip p (some csv) = .ok g) := by
  refine ⟨fun p csv hbad => load_stop_times_raises hbad, ?_, ?_⟩
  · intro fs dir o d T D csv hfs hbad
    unfold getRoute compute_route
    cases hS : load_stops (pathJoin dir "stops.csv")
        (fs (pathJoin dir "stops.csv")) with
    | error e => rw [exceptBind_err]; exact ⟨_, rfl⟩
    | ok S =>
      rw [exceptBind_ok, hfs]
      rcases @load_stop_times_raises (pathJoin dir "stop_times.csv") csv hbad
        with ⟨e, he⟩
      rw [he, exceptBind_err]
      exact ⟨_, rfl⟩
  · intro p csv g habsent hg
    simp only [load_stop_times_by_trip]
    rw [hg, exceptBind_ok]
    apply sortAllTrips_id
    intro q hq
    have hrows : ∀ x ∈ q.2, rowGet? x "stop_sequence" = none :=
      groupByTripAux_rows_in habsent (by simp) hg q hq
    have hgood : ∀ r ∈ q.2, (stopSeqKey? r).isSome := by
      intro r hr
      unfold stopSeqKey?
      rw [hrows r hr]
      rfl
    rw [sortTripRows_ok_of_good hgood, sortByKey_const_zero]
    intro x hx
    unfold stopSeqKey?
    rw [hrows x hx]
    rfl

/-- Witness for C8: the bad-sequence feed on part two, and a one-row
sequence-free table on part three. -/
theorem stop_sequence_handling_witness :
    (∃ m, getRoute fsBadSeq (some "A") (some "B") "08:00:00" "20250101"
      DATA_DIR_DEFAULT = .errObj m true) ∧
    load_stop_times_by_trip "stop_times.csv"
        (some [[("trip_id", "T1"), ("stop_id", "A")]]) =
      .ok [("T1", [[("trip_id", "T1"), ("stop_id", "A")]])] :=
  ⟨stop_sequence_handling.2.1 fsBadSeq DATA_DIR_DEFAULT (some "A") (some "B")
      "08:00:00" "20250101" feedBadSeqStopTimes (by decide)
      ⟨[("trip_id", "T1"), ("stop_id", "B"), ("stop_sequence", "x"),
          ("arrival_time", "08:30:00"), ("departure_time", "08:30:00")],
        by decide, "x", by decide, by decide⟩,
    stop_sequence_handling.2.2 "stop_times.csv"
      [[("trip_id", "T1"), ("stop_id", "A")]]
      [("T1", [[("trip_id", "T1"), ("stop_id", "A")]])]
      (by decide) (by decide)⟩

/-! ## C4 — the in-vehicle chain invariant -/

theorem edgeInsert_forall {P : (String × String) × EdgeData → Prop}
    {es : EdgeList} {u v : String} {d : EdgeData}
    (hes : ∀ e ∈ es, P e) (hnew : P ((u, v), d)) :
    ∀ e ∈ edgeInsert u v d es, P e := by
  induction es with
  | nil =>
    intro e he
    simp only [edgeInsert, List.mem_singleton] at he
    subst he
    exact hnew
  | cons e0 rest ih =>
    intro e he
    simp only [edgeInsert] at he
    by_cases hc : e0.1 = (u, v)
    · rw [if_pos hc] at he
      rcases List.mem_cons.mp he with h1 | h2
      · rw [h1]; exact hnew
      · exact hes e (List.mem_cons_of_mem _ h2)
    · rw [if_neg hc] at he
      rcases List.mem_cons.mp he with h1 | h2
      · rw [h1]; exact hes e0 (by simp)
      · exact ih (fun x hx => hes x (List.mem_cons_of_mem _ hx)) e h2

theorem prevOk_skip {start : Nat} {tid : String} {rows : List Row} {idx : Nat}
    {prev : Option (String × Nat)} {r : Row} (hp : prevOk start tid rows idx prev)
    (hr : rows[idx]? = some r) (hskip : emittedRow start r = none) :
    prevOk start tid rows (idx + 1) prev := by
  cases prev with
  | none =>
    intro k rr hk hget
    rcases Nat.lt_succ_iff_lt_or_eq.mp hk with hk1 | hk2
    · exact hp k rr hk1 hget
    · subst hk2
      rw [hr] at hget
      cases hget
      exact hskip
  | some p =>
    rcases p with ⟨pid, pdep⟩
    rcases hp with ⟨i, ru, su, a, hi, hru, hem, hsu, hpid, hgap⟩
    refine ⟨i, ru, su, a, by omega, hru, hem, hsu, hpid, ?_⟩
    intro k rr hik hk hget
    rcases Nat.lt_succ_iff_lt_or_eq.mp hk with hk1 | hk2
    · exact hgap k rr hik hk1 hget
    · subst hk2
      rw [hr] at hget
      cases hget
      exact hskip

theorem sdAppend_G {sid nid : String} {d : Nat} {st st2 : BuildState}
    (h : sdAppend sid nid d st = .ok st2) : st2.G = st.G := by
  unfold sdAppend at h
  cases hsd : dget? st.sd sid with
  | none => rw [hsd] at h; cases h
  | some l => rw [hsd] at h; cases h; rfl

theorem addTripRows_inv (stops : Dict Stop) (date : String) (start : Nat)
    (tid rid rn rdesc th tsn : String) (rel : Dict (List Row))
    (rows0 : List Row) (hmem : (tid, rows0) ∈ rel) :
    ∀ (rest : List Row) (idx : Nat) (prev : Option (String × Nat))
      (st st' : BuildState),
      (∀ k, rest[k]? = rows0[idx + k]?) →
      prevOk start tid rows0 idx prev →
      (∀ e ∈ st.G.edges, inVehicleEdgeOk start rel e) →
      addTripRows stops date start tid rid rn rdesc th tsn rest idx prev st =
        .ok st' →
      ∀ e ∈ st'.G.edges, inVehicleEdgeOk start rel e := by
  intro rest
  induction rest with
  | nil =>
    intro idx prev st st' _ _ hedges h
    simp only [addTripRows] at h
    cases h
    exact hedges
  | cons r rest' ih =>
    intro idx prev st st' hidx hprev hedges h
    have hr0 : rows0[idx]? = some r := by
      have := hidx 0
      simpa using this.symm
    have hidx' : ∀ k, rest'[k]? = rows0[idx + 1 + k]? := by
      intro k
      have := hidx (k + 1)
      simpa [Nat.add_assoc, Nat.add_comm 1 k] using this
    simp only [addTripRows] at h
    cases hsid : rowGet? r "stop_id" with
    | none => simp only [hsid] at h; cases h
    | some sid =>
      simp only [hsid] at h
      cases hem : emittedRow start r with
      | none =>
        simp only [hem] at h
        exact ih (idx + 1) prev st st' hidx'
          (prevOk_skip hprev hr0 hem) hedges h
      | some ad =>
        rcases ad with ⟨a, d⟩
        simp only [hem] at h
        cases hap : sdAppend sid (mkNodeId sid tid idx) d
            { G := st.G.addNode (mkNodeId sid tid idx)
                { stop_id := sid, trip_id := tid, route_id := rid,
                  arrival_time := a, departure_time := d, stop_sequence := idx,
                  stop_name :=
                    (Option.map (fun s => s.name) (dget? stops sid)).getD "",
                  route_name := rn, route_description := rdesc,
                  trip_headsign := th, trip_short_name := tsn, date := date },
              sd := st.sd } with
        | error e => simp only [hap, exceptBind_err] at h; cases h
        | ok st2 =>
          simp only [hap, exceptBind_ok] at h
          have hG2 : st2.G.edges = st.G.edges := by
            rw [sdAppend_G hap]
            rfl
          have hprev' : prevOk start tid rows0 (idx + 1)
              (some (mkNodeId sid tid idx, d)) := by
            refine ⟨idx, r, sid, a, by omega, hr0, hem, hsid, rfl, ?_⟩
            intro k rr h1 h2 _
            omega
          have hedges3 : ∀ e ∈ (addPrevEdge tid a prev (mkNodeId sid tid idx)
              st2).G.edges, inVehicleEdgeOk start rel e := by
            cases prev with
            | none =>
              simp only [addPrevEdge]
              rw [hG2]
              exact hedges
            | some p =>
              rcases p with ⟨pid, pdep⟩
              simp only [addPrevEdge]
              by_cases htr : 0 ≤ (a : Int) - (pdep : Int)
              · rw [if_pos htr]
                simp only [Graph.addEdge]
                rw [hG2]
                apply edgeInsert_forall hedges
                intro w t hwt
                cases hwt
                rcases hprev with ⟨i, ru, su, pa, hi, hru, hemu, hsu, hpid, hgap⟩
                exact ⟨rows0, i, idx, ru, r, su, sid, pa, pdep, a, d, hmem, hru,
                  hr0, hi, hemu, hem, hgap, hsu, hsid, hpid, rfl, rfl, htr⟩
              · rw [if_neg htr]
                rw [hG2]
                exact hedges
          exact ih (idx + 1) (some (mkNodeId sid tid idx, d)) _ st' hidx'
            hprev' hedges3 h

theorem addAllTrips_inv (stops : Dict Stop) (date : String) (start : Nat)
    (routes : Dict RouteInfo) (trip_routes : Dict TripInfo)
    (rel : Dict (List Row)) :
    ∀ (l : List (String × List Row)), (∀ p ∈ l, p ∈ rel) →
    ∀ (st st' : BuildState),
      (∀ e ∈ st.G.edges, inVehicleEdgeOk start rel e) →
      addAllTrips stops date start routes trip_routes l st = .ok st' →
      ∀ e ∈ st'.G.edges, inVehicleEdgeOk start rel e := by
  intro l
  induction l with
  | nil =>
    intro _ st st' hedges h
    simp only [addAllTrips] at h
    cases h
    exact hedges
  | cons p rest ih =>
    rcases p with ⟨tid, rows⟩
    intro hsub st st' hedges h
    simp only [addAllTrips] at h
    cases hstep : addTripRows stops date start tid
        ((dget? trip_routes tid).getD ⟨"", "", "", ""⟩).route_id
        (match dget? routes ((dget? trip_routes tid).getD ⟨"", "", "", ""⟩).route_id with
          | some ri => ri.route_short_name
          | none => ((dget? trip_routes tid).getD ⟨"", "", "", ""⟩).route_id)
        (match dget? routes ((dget? trip_routes tid).getD ⟨"", "", "", ""⟩).route_id with
          | some ri => ri.route_long_name
          | none => "")
        ((dget? trip_routes tid).getD ⟨"", "", "", ""⟩).trip_headsign
        ((dget? trip_routes tid).getD ⟨"", "", "", ""⟩).trip_short_name
        rows 0 none st with
    | error e => rw [hstep, exceptBind_err] at h; cases h
    | ok st1 =>
      rw [hstep, exceptBind_ok] at h
      have hmid : ∀ e ∈ st1.G.edges, inVehicleEdgeOk start rel e := by
        refine addTripRows_inv stops date start tid _ _ _ _ _ rel rows
          (hsub (tid, rows) (by simp)) rows 0 none st st1 (by simp) ?_ hedges
          hstep
        intro k rr hk _
        omega
      exact ih (fun q hq => hsub q (List.mem_cons_of_mem _ hq)) st1 st' hmid h

theorem scanTransfers_inv {start : Nat} {rel : Dict (List Row)}
    {sid fn ft : String} {fa : Nat} :
    ∀ (l : List (String × Nat)) (added : Nat) (G : Graph),
      (∀ e ∈ G.edges, inVehicleEdgeOk start rel e) →
      ∀ e ∈ (scanTransfers sid fn ft fa l added G).edges,
        inVehicleEdgeOk start rel e := by
  intro l
  induction l with
  | nil => intro added G h; simpa [scanTransfers] using h
  | cons p rest ih =>
    rcases p with ⟨tn, tt⟩
    intro added G h
    simp only [scanTransfers]
    split
    · split
      · split
        · apply edgeInsert_forall h
          intro w t hwt
          cases hwt
        · apply ih
          simp only [Graph.addEdge]
          apply edgeInsert_forall h
          intro w t hwt
          cases hwt
      · exact ih added G h
    · exact ih added G h

theorem transferLoop_inv {start : Nat} {rel : Dict (List Row)} {sid : String} :
    ∀ (l : List (String × Nat)) (G : Graph),
      (∀ e ∈ G.edges, inVehicleEdgeOk start rel e) →
      ∀ e ∈ (transferLoop sid l G).edges, inVehicleEdgeOk start rel e := by
  intro l
  induction l with
  | nil => intro G h; simpa [transferLoop] using h
  | cons p rest ih =>
    rcases p with ⟨fn, ft⟩
    intro G h
    simp only [transferLoop]
    exact ih _ (scanTransfers_inv _ _ _ h)

theorem addAllTransfers_inv {start : Nat} {rel : Dict (List Row)} :
    ∀ (l : List (String × List (String × Nat))) (G : Graph),
      (∀ e ∈ G.edges, inVehicleEdgeOk start rel e) →
      ∀ e ∈ (addAllTransfers l G).edges, inVehicleEdgeOk start rel e := by
  intro l
  induction l with
  | nil => intro G h; simpa [addAllTransfers] using h
  | cons p rest ih =>
    rcases p with ⟨sid, deps⟩
    intro G h
    simp only [addAllTransfers]
    exact ih _ (transferLoop_inv _ _ h)

/-- C4 amended: in any graph `build_transit_graph` returns, every
in-vehicle edge joins two *emitted* rows `i < j` of a relevant trip with
every row strictly between them skipped (not emitted), its weight the
arrival of row `j` minus the departure of row `i`, non-negative — skipped
rows are spanned by the chain rather than breaking it. -/
theorem in_vehicle_edges_join_emitted_rows (fs : FileSystem)
    (stops : Dict Stop) (trips : Dict (List Row)) (routes : Dict RouteInfo)
    (trip_routes : Dict TripInfo) (start : Nat) (date : String) (G : Graph)
    (sd : Dict (List (String × Nat)))
    (h : build_transit_graph fs stops trips routes trip_routes start date =
      .ok (G, sd)) :
    ∃ cal, load_calendar_dates
        (fs (pathJoin DATA_DIR_DEFAULT "calendar_dates.csv")) = .ok cal ∧
      ∀ u v w t, lookupEdge G u v = some (.in_vehicle w t) →
        inVehicleEdgeOk start
          (relevantTrips trips trip_routes (activeServiceIds cal date) start)
          ((u, v), .in_vehicle w t) := by
  simp only [build_transit_graph] at h
  cases hcal : load_calendar_dates
      (fs (pathJoin DATA_DIR_DEFAULT "calendar_dates.csv")) with
  | error e => simp only [hcal, exceptBind_err] at h; cases h
  | ok cal =>
    simp only [hcal, exceptBind_ok] at h
    refine ⟨cal, rfl, ?_⟩
    cases hst : addAllTrips stops date start routes trip_routes
        (relevantTrips trips trip_routes (activeServiceIds cal date) start)
        ⟨⟨[], []⟩, stops.map (fun p => (p.1, []))⟩ with
    | error e => simp only [hst, exceptBind_err] at h; cases h
    | ok st =>
      simp only [hst, exceptBind_ok] at h
      injection h with h2
      have hG : G = addAllTransfers
          (st.sd.map (fun p => (p.1, sortByKey (fun q => (q.2 : Int)) p.2)))
          st.G := by
        have := congrArg Prod.fst h2
        exact this.symm
      have hok : ∀ e ∈ G.edges, inVehicleEdgeOk start
          (relevantTrips trips trip_routes (activeServiceIds cal date) start)
          e := by
        rw [hG]
        apply addAllTransfers_inv
        apply addAllTrips_inv stops date start routes trip_routes _ _
          (fun p hp => hp) _ st _ hst
        intro e he
        cases he
      intro u v w t hl
      unfold lookupEdge at hl
      cases hfind : G.edges.find? (fun e => e.1 = (u, v)) with
      | none => rw [hfind] at hl; cases hl
      | some ent =>
        rw [hfind] at hl
        have hmem : ent ∈ G.edges := List.mem_of_find?_eq_some hfind
        have hpred : ent.1 = (u, v) := by
          have := List.find?_some hfind
          exact of_decide_eq_true this
        have hdata : ent.2 = EdgeData.in_vehicle w t := Option.some.inj hl
        have hent : ent = ((u, v), EdgeData.in_vehicle w t) := by
          rcases ent with ⟨p, dta⟩
          simp only at hpred hdata
          rw [hpred, hdata]
        rw [← hent]
        exact hok ent hmem

/-- Witness for the amended C4: the skip feed, whose single in-vehicle
edge joins rows 0 and 2 across the skipped row 1. -/
theorem in_vehicle_edges_join_emitted_rows_witness :
    ∃ cal, load_calendar_dates
        (fsSkip (pathJoin DATA_DIR_DEFAULT "calendar_dates.csv")) = .ok cal ∧
      ∀ u v w t, lookupEdge skipG u v = some (.in_vehicle w t) →
        inVehicleEdgeOk 28800
          (relevantTrips skipTrips skipTripRoutes
            (activeServiceIds cal "20250101") 28800)
          ((u, v), .in_vehicle w t) :=
  in_vehicle_edges_join_emitted_rows fsSkip skipStops skipTrips skipRoutes
    skipTripRoutes 28800 "20250101" skipG skipSd (by decide)

/-! ## C1 — correctness of the search cover -/

theorem dget?_eq_none_iff {α : Type} {d : Dict α} {k : String} :
    dget? d k = none ↔ k ∉ d.map Prod.fst := by
  unfold dget?
  rw [Option.map_eq_none', List.find?_eq_none]
  constructor
  · intro h hk
    rcases List.mem_map.mp hk with ⟨p, hp, hfst⟩
    have := h p hp
    simp [hfst] at this
  · intro h p hp
    by_contra hpk
    simp only [decide_eq_true_eq] at hpk
    exact h (List.mem_map.mpr ⟨p, hp, hpk⟩)

theorem dget?_isSome_mem {α : Type} {d : Dict α} {k : String}
    (h : (dget? d k).isSome) : ∃ p ∈ d, p.1 = k := by
  unfold dget? at h
  cases hf : d.find? (fun p => p.1 = k) with
  | none => rw [hf] at h; cases h
  | some p =>
    refine ⟨p, List.mem_of_find?_eq_some hf, ?_⟩
    have := List.find?_some hf
    exact of_decide_eq_true this

theorem dget?_some_mem {α : Type} {d : Dict α} {k : String} {v : α}
    (h : dget? d k = some v) : (k, v) ∈ d := by
  unfold dget? at h
  cases hf : d.find? (fun p => p.1 = k) with
  | none => rw [hf] at h; cases h
  | some p =>
    rw [hf] at h
    have hm := List.mem_of_find?_eq_some hf
    have hk0 := List.find?_some hf
    have hk : p.1 = k := of_decide_eq_true hk0
    have hv : p.2 = v := Option.some.inj h
    rcases p with ⟨a, b⟩
    simp only at hk hv
    rw [← hk, ← hv]
    exact hm

theorem dget?_append_of_isSome {α : Type} {d ext : Dict α} {k : String}
    (h : (dget? d k).isSome) : dget? (d ++ ext) k = dget? d k := by
  unfold dget? at h ⊢
  rw [List.find?_append]
  cases hf : d.find? (fun p => p.1 = k) with
  | none => rw [hf] at h; cases h
  | some p => rfl

theorem expandOne_append (pu : List String) :
    ∀ (l : List String) (acc : Dict (List String)),
      ∃ ext, l.foldl (fun a v =>
        if (dget? a v).isSome then a else a ++ [(v, pu ++ [v])]) acc =
        acc ++ ext := by
  intro l
  induction l with
  | nil => intro acc; exact ⟨[], by simp⟩
  | cons x xs ih =>
    intro acc
    simp only [List.foldl_cons]
    by_cases hx : (dget? acc x).isSome
    · rw [if_pos hx]
      exact ih acc
    · rw [if_neg hx]
      rcases ih (acc ++ [(x, pu ++ [x])]) with ⟨ext, hext⟩
      exact ⟨[(x, pu ++ [x])] ++ ext, by rw [hext, List.append_assoc]⟩

theorem expandOne_eq_append (es : EdgeList) (u : String) (pu : List String)
    (acc : Dict (List String)) :
    ∃ ext, expandOne es u pu acc = acc ++ ext :=
  expandOne_append pu (succs es u) acc

theorem expandOne_mono {es : EdgeList} {u : String} {pu : List String}
    {acc : Dict (List String)} {k : String} (h : (dget? acc k).isSome) :
    (dget? (expandOne es u pu acc) k).isSome := by
  rcases expandOne_eq_append es u pu acc with ⟨ext, hext⟩
  rw [hext, dget?_append_of_isSome h]
  exact h

theorem dget?_append_singleton_self {acc : Dict (List String)} {v : String}
    {p : List String} (h : ¬(dget? acc v).isSome) :
    (dget? (acc ++ [(v, p)]) v).isSome := by
  unfold dget? at h ⊢
  rw [List.find?_append]
  cases hf : acc.find? (fun q => q.1 = v) with
  | none => simp [List.find?]
  | some q => simp [hf] at h

/-- One fold step of `expandOne` for a fixed extension path `pu`. -/
theorem expandStep_mono {pu : List String} {acc : Dict (List String)}
    {x k : String} (h : (dget? acc k).isSome) :
    (dget? (if (dget? acc x).isSome then acc else acc ++ [(x, pu ++ [x])])
      k).isSome := by
  by_cases hx : (dget? acc x).isSome
  · rw [if_pos hx]; exact h
  · rw [if_neg hx]
    rw [dget?_append_of_isSome h]
    exact h

theorem expandFold_mono {pu : List String} :
    ∀ (l : List String) (acc : Dict (List String)) (k : String),
      (dget? acc k).isSome →
      (dget? (l.foldl (fun a x =>
        if (dget? a x).isSome then a else a ++ [(x, pu ++ [x])]) acc)
        k).isSome := by
  intro l
  induction l with
  | nil => intro acc k h; exact h
  | cons x xs ih =>
    intro acc k h
    simp only [List.foldl_cons]
    exact ih _ k (expandStep_mono h)

theorem expandFold_covers {pu : List String} :
    ∀ (l : List String) (acc : Dict (List String)) (v : String), v ∈ l →
      (dget? (l.foldl (fun a x =>
        if (dget? a x).isSome then a else a ++ [(x, pu ++ [x])]) acc)
        v).isSome := by
  intro l
  induction l with
  | nil => intro acc v hv; cases hv
  | cons x xs ih =>
    intro acc v hv
    simp only [List.foldl_cons]
    rcases List.mem_cons.mp hv with h1 | h2
    · subst h1
      apply expandFold_mono
      by_cases hx : (dget? acc v).isSome
      · rw [if_pos hx]; exact hx
      · rw [if_neg hx]
        exact dget?_append_singleton_self hx
    · exact ih _ v h2

theorem expandOne_covers {es : EdgeList} {u : String} {pu : List String}
    {acc : Dict (List String)} {v : String} (hv : v ∈ succs es u) :
    (dget? (expandOne es u pu acc) v).isSome :=
  expandFold_covers (succs es u) acc v hv

theorem expandAllFold_eq_append (es : EdgeList) :
    ∀ (l : List (String × List String)) (acc : Dict (List String)),
      ∃ ext, l.foldl (fun a p => expandOne es p.1 p.2 a) acc = acc ++ ext := by
  intro l
  induction l with
  | nil => intro acc; exact ⟨[], by simp⟩
  | cons p ps ih =>
    intro acc
    simp only [List.foldl_cons]
    rcases expandOne_eq_append es p.1 p.2 acc with ⟨e1, he1⟩
    rcases ih (expandOne es p.1 p.2 acc) with ⟨e2, he2⟩
    refine ⟨e1 ++ e2, ?_⟩
    rw [he2, he1, List.append_assoc]

theorem expandAll_eq_append (es : EdgeList) (vis : Dict (List String)) :
    ∃ ext, expandAll es vis = vis ++ ext :=
  expandAllFold_eq_append es vis vis

theorem expandAll_mono {es : EdgeList} {vis : Dict (List String)} {k : String}
    (h : (dget? vis k).isSome) : (dget? (expandAll es vis) k).isSome := by
  rcases expandAll_eq_append es vis with ⟨ext, hext⟩
  rw [hext, dget?_append_of_isSome h]
  exact h

theorem expandAllFold_mono {es : EdgeList} :
    ∀ (l : List (String × List String)) (acc : Dict (List String)) (k : String),
      (dget? acc k).isSome →
      (dget? (l.foldl (fun a p => expandOne es p.1 p.2 a) acc) k).isSome := by
  intro l
  induction l with
  | nil => intro acc k h; exact h
  | cons p ps ih =>
    intro acc k h
    simp only [List.foldl_cons]
    exact ih _ k (expandOne_mono h)

theorem expandAll_covers {es : EdgeList} {vis : Dict (List String)}
    {u : String} {pu : List String} {v : String} (hu : (u, pu) ∈ vis)
    (hv : v ∈ succs es u) : (dget? (expandAll es vis) v).isSome := by
  unfold expandAll
  -- walk the fold until the (u, pu) entry is processed
  have main : ∀ (l : List (String × List String)) (acc : Dict (List String)),
      (u, pu) ∈ l →
      (dget? (l.foldl (fun a p => expandOne es p.1 p.2 a) acc) v).isSome := by
    intro l
    induction l with
    | nil => intro acc h; cases h
    | cons p ps ih =>
      intro acc h
      simp only [List.foldl_cons]
      rcases List.mem_cons.mp h with h1 | h2
      · rw [← h1]
        exact expandAllFold_mono ps _ v (expandOne_covers hv)
      · exact ih _ h2
  exact main vis vis hu

theorem succs_sub_targets {es : EdgeList} {u v : String} (h : v ∈ succs es u) :
    v ∈ es.map (fun e => e.1.2) := by
  unfold succs at h
  rcases List.mem_map.mp h with ⟨e, he, hv⟩
  exact List.mem_map.mpr ⟨e, List.mem_of_mem_filter he, hv⟩

theorem expandFold_inv {es : EdgeList} {s u : String} {pu : List String}
    (hu : Reach es s u) :
    ∀ (l : List String) (acc : Dict (List String)),
      (∀ x ∈ l, x ∈ succs es u) →
      (∀ q ∈ acc, Reach es s q.1 ∧ q.2.getLast? = some q.1) →
      ∀ q ∈ (l.foldl (fun a x =>
        if (dget? a x).isSome then a else a ++ [(x, pu ++ [x])]) acc),
        Reach es s q.1 ∧ q.2.getLast? = some q.1 := by
  intro l
  induction l with
  | nil => intro acc _ hacc q hq; exact hacc q hq
  | cons x xs ih =>
    intro acc hl hacc
    simp only [List.foldl_cons]
    by_cases hx : (dget? acc x).isSome
    · rw [if_pos hx]
      exact ih acc (fun y hy => hl y (List.mem_cons_of_mem _ hy)) hacc
    · rw [if_neg hx]
      refine ih _ (fun y hy => hl y (List.mem_cons_of_mem _ hy)) ?_
      intro q hq
      rcases List.mem_append.mp hq with h1 | h2
      · exact hacc q h1
      · simp only [List.mem_singleton] at h2
        subst h2
        exact ⟨Reach.step hu (hl x (by simp)), by simp⟩

theorem expandAll_inv {es : EdgeList} {s : String} {vis : Dict (List String)}
    (hvis : ∀ q ∈ vis, Reach es s q.1 ∧ q.2.getLast? = some q.1) :
    ∀ q ∈ expandAll es vis, Reach es s q.1 ∧ q.2.getLast? = some q.1 := by
  unfold expandAll
  have main : ∀ (l : List (String × List String)) (acc : Dict (List String)),
      (∀ q ∈ l, Reach es s q.1 ∧ q.2.getLast? = some q.1) →
      (∀ q ∈ acc, Reach es s q.1 ∧ q.2.getLast? = some q.1) →
      ∀ q ∈ l.foldl (fun a p => expandOne es p.1 p.2 a) acc,
        Reach es s q.1 ∧ q.2.getLast? = some q.1 := by
    intro l
    induction l with
    | nil => intro acc _ hacc q hq; exact hacc q hq
    | cons p ps ih =>
      intro acc hl hacc
      simp only [List.foldl_cons]
      refine ih _ (fun y hy => hl y (List.mem_cons_of_mem _ hy)) ?_
      exact expandFold_inv (hl p (by simp)).1 (succs es p.1) acc
        (fun x hx => hx) hacc
  exact main vis vis hvis hvis

/-- Key-hygiene invariants: unique keys, all keys among the source and
the edge targets. -/
def visWf (es : EdgeList) (s : String) (vis : Dict (List String)) : Prop :=
  (vis.map Prod.fst).Nodup ∧
    ∀ q ∈ vis, q.1 = s ∨ q.1 ∈ es.map (fun e => e.1.2)

theorem visWf_append_step {es : EdgeList} {s x : String} {pu : List String}
    {acc : Dict (List String)} (hwf : visWf es s acc)
    (hx : ¬(dget? acc x).isSome) (hxt : x ∈ es.map (fun e => e.1.2)) :
    visWf es s (acc ++ [(x, pu ++ [x])]) := by
  rcases hwf with ⟨hnd, hks⟩
  constructor
  · rw [List.map_append]
    rw [List.nodup_append]
    refine ⟨hnd, by simp, ?_⟩
    intro a ha hb
    simp only [List.map_cons, List.map_nil, List.mem_singleton] at hb
    subst hb
    have : dget? acc a = none := by
      cases hd : dget? acc a with
      | none => rfl
      | some p => rw [hd] at hx; exact absurd rfl hx
    exact (dget?_eq_none_iff.mp this) ha
  · intro q hq
    rcases List.mem_append.mp hq with h1 | h2
    · exact hks q h1
    · simp only [List.mem_singleton] at h2
      subst h2
      exact Or.inr hxt

theorem expandFold_wf {es : EdgeList} {s u : String} {pu : List String} :
    ∀ (l : List String) (acc : Dict (List String)),
      (∀ x ∈ l, x ∈ succs es u) → visWf es s acc →
      visWf es s (l.foldl (fun a x =>
        if (dget? a x).isSome then a else a ++ [(x, pu ++ [x])]) acc) := by
  intro l
  induction l with
  | nil => intro acc _ h; exact h
  | cons x xs ih =>
    intro acc hl hwf
    simp only [List.foldl_cons]
    by_cases hx : (dget? acc x).isSome
    · rw [if_pos hx]
      exact ih acc (fun y hy => hl y (List.mem_cons_of_mem _ hy)) hwf
    · rw [if_neg hx]
      exact ih _ (fun y hy => hl y (List.mem_cons_of_mem _ hy))
        (visWf_append_step hwf hx (succs_sub_targets (hl x (by simp))))

theorem expandAll_wf {es : EdgeList} {s : String} {vis : Dict (List String)}
    (hwf : visWf es s vis) : visWf es s (expandAll es vis) := by
  unfold expandAll
  have main : ∀ (l : List (String × List String)) (acc : Dict (List String)),
      visWf es s acc →
      visWf es s (l.foldl (fun a p => expandOne es p.1 p.2 a) acc) := by
    intro l
    induction l with
    | nil => intro acc h; exact h
    | cons p ps ih =>
      intro acc hacc
      simp only [List.foldl_cons]
      exact ih _ (expandFold_wf (succs es p.1) acc (fun x hx => hx) hacc)
  exact main vis vis hwf

theorem visWf_length_bound {es : EdgeList} {s : String}
    {vis : Dict (List String)} (hwf : visWf es s vis) :
    vis.length ≤ es.length + 1 := by
  rcases hwf with ⟨hnd, hks⟩
  have hsub : (vis.map Prod.fst) ⊆ s :: es.map (fun e => e.1.2) := by
    intro k hk
    rcases List.mem_map.mp hk with ⟨q, hq, hfst⟩
    rcases hks q hq with h1 | h2
    · rw [← hfst, h1]; exact by simp
    · rw [← hfst]; exact List.mem_cons_of_mem _ h2
  have h1 : (vis.map Prod.fst).length ≤
      (s :: es.map (fun e => e.1.2)).toFinset.card := by
    rw [← List.toFinset_card_of_nodup hnd]
    exact Finset.card_le_card (fun a ha =>
      List.mem_toFinset.mpr (hsub (List.mem_toFinset.mp ha)))
  have h2 : (s :: es.map (fun e => e.1.2)).toFinset.card ≤
      (s :: es.map (fun e => e.1.2)).length := List.toFinset_card_le _
  have h3 : (s :: es.map (fun e => e.1.2)).length = es.length + 1 := by
    simp
  rw [List.length_map] at h1
  omega

theorem iterExpand_mono {es : EdgeList} :
    ∀ (fuel : Nat) (vis : Dict (List String)) (k : String),
      (dget? vis k).isSome → (dget? (iterExpand es fuel vis) k).isSome := by
  intro fuel
  induction fuel with
  | zero => intro vis k h; exact h
  | succ n ih =>
    intro vis k h
    simp only [iterExpand]
    split
    · exact h
    · exact ih _ k (expandAll_mono h)

theorem iterExpand_inv {es : EdgeList} {s : String} :
    ∀ (fuel : Nat) (vis : Dict (List String)),
      (∀ q ∈ vis, Reach es s q.1 ∧ q.2.getLast? = some q.1) →
      ∀ q ∈ iterExpand es fuel vis, Reach es s q.1 ∧ q.2.getLast? = some q.1 := by
  intro fuel
  induction fuel with
  | zero => intro vis h; exact h
  | succ n ih =>
    intro vis h
    simp only [iterExpand]
    split
    · exact h
    · exact ih _ (expandAll_inv h)

theorem iterExpand_closed {es : EdgeList} {s : String} :
    ∀ (fuel : Nat) (vis : Dict (List String)), visWf es s vis →
      es.length + 2 ≤ fuel + vis.length →
      expandAll es (iterExpand es fuel vis) = iterExpand es fuel vis := by
  intro fuel
  induction fuel with
  | zero =>
    intro vis hwf hb
    have := visWf_length_bound hwf
    omega
  | succ n ih =>
    intro vis hwf hb
    simp only [iterExpand]
    rcases expandAll_eq_append es vis with ⟨ext, hext⟩
    by_cases hlen : (expandAll es vis).length = vis.length
    · rw [if_pos hlen]
      have hnil : ext = [] := by
        rw [hext, List.length_append] at hlen
        have : ext.length = 0 := by omega
        exact List.length_eq_zero.mp this
      rw [hext, hnil, List.append_nil]
    · rw [if_neg hlen]
      have hgrow : vis.length + 1 ≤ (expandAll es vis).length := by
        rw [hext, List.length_append]
        rcases Nat.eq_zero_or_pos ext.length with h0 | hpos
        · exfalso
          apply hlen
          rw [hext, List.length_append, h0]
          omega
        · omega
      exact ih _ (expandAll_wf hwf) (by omega)

theorem single_source_paths_inv {es : EdgeList} {s : String} :
    ∀ q ∈ single_source_paths es s, Reach es s q.1 ∧ q.2.getLast? = some q.1 := by
  unfold single_source_paths
  apply iterExpand_inv
  intro q hq
  simp only [List.mem_singleton] at hq
  subst hq
  exact ⟨Reach.refl, rfl⟩

theorem single_source_paths_sound {es : EdgeList} {s w : String}
    (h : (dget? (single_source_paths es s) w).isSome) : Reach es s w := by
  rcases dget?_isSome_mem h with ⟨q, hq, hfst⟩
  have := (single_source_paths_inv q hq).1
  rw [hfst] at this
  exact this

theorem single_source_paths_complete {es : EdgeList} {s w : String}
    (h : Reach es s w) : (dget? (single_source_paths es s) w).isSome := by
  induction h with
  | refl =>
    unfold single_source_paths
    apply iterExpand_mono
    simp [dget?, List.find?]
  | step hr hv ih =>
    rename_i u v
    have hclosed : expandAll es (single_source_paths es s) =
        single_source_paths es s := by
      unfold single_source_paths
      apply @iterExpand_closed es s
      · constructor
        · simp
        · intro q hq
          simp only [List.mem_singleton] at hq
          subst hq
          exact Or.inl rfl
      · simp
    rcases dget?_isSome_mem ih with ⟨q, hq, hfst⟩
    rcases q with ⟨kq, pq⟩
    simp only at hfst
    subst hfst
    have := @expandAll_covers es (single_source_paths es s) _ _ _
      hq hv
    rw [hclosed] at this
    exact this

theorem reach_iff_reachableFromB {es : EdgeList} {s w : String} :
    Reach es s w ↔ reachableFromB es s w = true := by
  unfold reachableFromB
  constructor
  · exact single_source_paths_complete
  · exact single_source_paths_sound

theorem single_source_paths_ends {es : EdgeList} {s w : String}
    {p : List String} (h : dget? (single_source_paths es s) w = some p) :
    p.getLast? = some w := by
  have hm := dget?_some_mem h
  exact (single_source_paths_inv (w, p) hm).2

theorem fmin_go_min (f : String → Nat) :
    ∀ (l : List String) (b n : String),
      l.foldl (fun acc x => match acc with
        | none => some x
        | some b => if f x < f b then some x else some b) (some b) = some n →
      f n ≤ f b ∧ ∀ m ∈ l, f n ≤ f m := by
  intro l
  induction l with
  | nil =>
    intro b n h
    simp only [List.foldl_nil] at h
    cases h
    exact ⟨Nat.le_refl _, by simp⟩
  | cons x xs ih =>
    intro b n h
    simp only [List.foldl_cons] at h
    by_cases hc : f x < f b
    · simp only [if_pos hc] at h
      rcases ih x n h with ⟨h1, h2⟩
      refine ⟨by omega, ?_⟩
      intro m hm
      rcases List.mem_cons.mp hm with hm1 | hm2
      · rw [hm1]; exact h1
      · exact h2 m hm2
    · simp only [if_neg hc] at h
      rcases ih b n h with ⟨h1, h2⟩
      refine ⟨h1, ?_⟩
      intro m hm
      rcases List.mem_cons.mp hm with hm1 | hm2
      · rw [hm1]; omega
      · exact h2 m hm2

theorem fmin_go_first (f : String → Nat) :
    ∀ (l : List String) (b n : String),
      l.foldl (fun acc x => match acc with
        | none => some x
        | some b => if f x < f b then some x else some b) (some b) = some n →
      (n = b ∧ ∀ y ∈ l, ¬(f y < f b)) ∨
      (∃ l₁ l₂, l = l₁ ++ n :: l₂ ∧ f n < f b ∧ ∀ y ∈ l₁, f n < f y) := by
  intro l
  induction l with
  | nil =>
    intro b n h
    simp only [List.foldl_nil] at h
    cases h
    exact Or.inl ⟨rfl, by simp⟩
  | cons x xs ih =>
    intro b n h
    simp only [List.foldl_cons] at h
    by_cases hc : f x < f b
    · simp only [if_pos hc] at h
      rcases ih x n h with ⟨h1, h2⟩ | ⟨l₁, l₂, hsplit, hlt, hstrict⟩
      · subst h1
        exact Or.inr ⟨[], xs, rfl, hc, by simp⟩
      · refine Or.inr ⟨x :: l₁, l₂, by rw [hsplit]; rfl, by omega, ?_⟩
        intro y hy
        rcases List.mem_cons.mp hy with hy1 | hy2
        · rw [hy1]; omega
        · exact hstrict y hy2
    · simp only [if_neg hc] at h
      rcases ih b n h with ⟨h1, h2⟩ | ⟨l₁, l₂, hsplit, hlt, hstrict⟩
      · subst h1
        refine Or.inl ⟨rfl, ?_⟩
        intro y hy
        rcases List.mem_cons.mp hy with hy1 | hy2
        · rw [hy1]; exact hc
        · exact h2 y hy2
      · refine Or.inr ⟨x :: l₁, l₂, by rw [hsplit]; rfl, hlt, ?_⟩
        intro y hy
        rcases List.mem_cons.mp hy with hy1 | hy2
        · rw [hy1]; omega
        · exact hstrict y hy2

theorem firstMinBy_spec {f : String → Nat} {l : List String} {n : String}
    (h : firstMinBy f l = some n) :
    n ∈ l ∧ (∀ m ∈ l, f n ≤ f m) ∧
      ∃ l₁ l₂, l = l₁ ++ n :: l₂ ∧ ∀ y ∈ l₁, f n < f y := by
  cases l with
  | nil => cases h
  | cons x xs =>
    simp only [firstMinBy, List.foldl_cons] at h
    rcases fmin_go_min f xs x n h with ⟨hxb, hmin⟩
    have hall : ∀ m ∈ x :: xs, f n ≤ f m := by
      intro m hm
      rcases List.mem_cons.mp hm with h1 | h2
      · rw [h1]; exact hxb
      · exact hmin m h2
    rcases fmin_go_first f xs x n h with ⟨h1, _⟩ | ⟨l₁, l₂, hsplit, hlt, hstrict⟩
    · subst h1
      exact ⟨by simp, hall, [], xs, rfl, by simp⟩
    · refine ⟨?_, hall, x :: l₁, l₂, by rw [hsplit]; rfl, ?_⟩
      · rw [hsplit]
        exact List.mem_cons_of_mem _ (List.mem_append_right _ (by simp))
      · intro y hy
        rcases List.mem_cons.mp hy with hy1 | hy2
        · rw [hy1]; exact hlt
        · exact hstrict y hy2

theorem firstMinBy_append_singleton (f : String → Nat) (l : List String)
    (x : String) :
    firstMinBy f (l ++ [x]) =
      match firstMinBy f l with
      | none => some x
      | some b => if f x < f b then some x else some b := by
  unfold firstMinBy
  rw [List.foldl_append]
  rfl

theorem considerFold_rel (G : Graph) (paths : Dict (List String))
    (hends : ∀ k p, dget? paths k = some p → p.getLast? = some k) :
    ∀ (ds L : List String) (acc : Option (Nat × List String)),
      ((acc = none ∧
          firstMinBy (fun x => (nodeAttr G x).arrival_time) L = none) ∨
        (∃ n a p, acc = some (a, p) ∧
          firstMinBy (fun x => (nodeAttr G x).arrival_time) L = some n ∧
          a = (nodeAttr G n).arrival_time ∧ p.getLast? = some n)) →
      ((ds.foldl (considerDest G paths) acc = none ∧
          firstMinBy (fun x => (nodeAttr G x).arrival_time)
            (L ++ ds.filter (fun x => (dget? paths x).isSome)) = none) ∨
        (∃ n a p, ds.foldl (considerDest G paths) acc = some (a, p) ∧
          firstMinBy (fun x => (nodeAttr G x).arrival_time)
            (L ++ ds.filter (fun x => (dget? paths x).isSome)) = some n ∧
          a = (nodeAttr G n).arrival_time ∧ p.getLast? = some n)) := by
  intro ds
  induction ds with
  | nil =>
    intro L acc h
    simpa using h
  | cons x ds' ih =>
    intro L acc h
    simp only [List.foldl_cons, List.filter_cons]
    cases hp : dget? paths x with
    | none =>
      simp only [Option.isSome_none, Bool.false_eq_true, if_false]
      have hstep : considerDest G paths acc x = acc := by
        unfold considerDest
        rw [hp]
      rw [hstep]
      exact ih L acc h
    | some p =>
      simp only [Option.isSome_some, if_true]
      have hLx : L ++ x :: List.filter (fun x => (dget? paths x).isSome) ds' =
          (L ++ [x]) ++ List.filter (fun x => (dget? paths x).isSome) ds' := by
        rw [List.append_assoc]
        rfl
      rw [hLx]
      apply ih (L ++ [x])
      rcases h with ⟨hacc, hfm⟩ | ⟨n, a, pb, hacc, hfm, ha, hend⟩
      · subst hacc
        have hstep : considerDest G paths none x =
            some ((nodeAttr G x).arrival_time, p) := by
          unfold considerDest
          rw [hp]
        rw [hstep, firstMinBy_append_singleton, hfm]
        exact Or.inr ⟨x, _, p, rfl, rfl, rfl, hends x p hp⟩
      · subst hacc
        subst ha
        have hfm' : firstMinBy (fun x => (nodeAttr G x).arrival_time)
            (L ++ [x]) =
            if (nodeAttr G x).arrival_time < (nodeAttr G n).arrival_time
            then some x else some n := by
          rw [firstMinBy_append_singleton, hfm]
        rw [hfm']
        by_cases hc : (nodeAttr G x).arrival_time < (nodeAttr G n).arrival_time
        · have hstep : considerDest G paths
              (some ((nodeAttr G n).arrival_time, pb)) x =
              some ((nodeAttr G x).arrival_time, p) := by
            unfold considerDest
            rw [hp]
            show (if (nodeAttr G x).arrival_time < (nodeAttr G n).arrival_time
              then some ((nodeAttr G x).arrival_time, p)
              else some ((nodeAttr G n).arrival_time, pb)) = _
            rw [if_pos hc]
          rw [hstep, if_pos hc]
          exact Or.inr ⟨x, _, p, rfl, rfl, rfl, hends x p hp⟩
        · have hstep : considerDest G paths
              (some ((nodeAttr G n).arrival_time, pb)) x =
              some ((nodeAttr G n).arrival_time, pb) := by
            unfold considerDest
            rw [hp]
            show (if (nodeAttr G x).arrival_time < (nodeAttr G n).arrival_time
              then some ((nodeAttr G x).arrival_time, p)
              else some ((nodeAttr G n).arrival_time, pb)) = _
            rw [if_neg hc]
          rw [hstep, if_neg hc]
          exact Or.inr ⟨n, _, pb, rfl, rfl, rfl, hend⟩

theorem startsFold_rel (G : Graph) (dest_nodes : List String) :
    ∀ (starts : List String) (L : List String)
      (acc : Option (Nat × List String)),
      ((acc = none ∧
          firstMinBy (fun x => (nodeAttr G x).arrival_time) L = none) ∨
        (∃ n a p, acc = some (a, p) ∧
          firstMinBy (fun x => (nodeAttr G x).arrival_time) L = some n ∧
          a = (nodeAttr G n).arrival_time ∧ p.getLast? = some n)) →
      ((starts.foldl (fun best s =>
          dest_nodes.foldl (considerDest G (single_source_paths G.edges s))
            best) acc = none ∧
          firstMinBy (fun x => (nodeAttr G x).arrival_time)
            (L ++ starts.flatMap (fun s => dest_nodes.filter
              (fun x => (dget? (single_source_paths G.edges s) x).isSome))) =
            none) ∨
        (∃ n a p, starts.foldl (fun best s =>
          dest_nodes.foldl (considerDest G (single_source_paths G.edges s))
            best) acc = some (a, p) ∧
          firstMinBy (fun x => (nodeAttr G x).arrival_time)
            (L ++ starts.flatMap (fun s => dest_nodes.filter
              (fun x => (dget? (single_source_paths G.edges s) x).isSome))) =
            some n ∧
          a = (nodeAttr G n).arrival_time ∧ p.getLast? = some n)) := by
  intro starts
  induction starts with
  | nil =>
    intro L acc h
    simpa using h
  | cons s ss ih =>
    intro L acc h
    simp only [List.foldl_cons, List.flatMap_cons]
    rw [show L ++ (dest_nodes.filter
        (fun x => (dget? (single_source_paths G.edges s) x).isSome) ++
        ss.flatMap (fun s => dest_nodes.filter
          (fun x => (dget? (single_source_paths G.edges s) x).isSome))) =
      (L ++ dest_nodes.filter
        (fun x => (dget? (single_source_paths G.edges s) x).isSome)) ++
        ss.flatMap (fun s => dest_nodes.filter
          (fun x => (dget? (single_source_paths G.edges s) x).isSome)) from by
      rw [List.append_assoc]]
    apply ih
    exact considerFold_rel G (single_source_paths G.edges s)
      (fun k p hk => single_source_paths_ends hk) dest_nodes L acc h

theorem scanList_mem_iff {G : Graph} {sd : Dict (List (String × Nat))}
    {origin_id dest_id : String} {start : Nat} {m : String} :
    m ∈ scanList G sd origin_id dest_id start ↔
      m ∈ destNodes sd dest_id ∧
      ∃ s ∈ (validStarts sd origin_id start).take 10, Reach G.edges s m := by
  unfold scanList
  rw [List.mem_flatMap]
  constructor
  · rintro ⟨s, hs, hm⟩
    rcases List.mem_filter.mp hm with ⟨hmd, hr⟩
    exact ⟨hmd, s, hs, reach_iff_reachableFromB.mpr hr⟩
  · rintro ⟨hmd, s, hs, hr⟩
    exact ⟨s, hs, List.mem_filter.mpr ⟨hmd, reach_iff_reachableFromB.mp hr⟩⟩

/-- C1: when the search returns a path, the path ends at a destination
node whose *real* `arrival_time` attribute (not the penalty-laden
Dijkstra cost) is minimal over all destination nodes reachable from the
(at most `K_STARTS = 10`) considered start nodes; among ties, the first
one found in scan order is kept.  The hypothesis `hstarts` confines the
statement to inputs on which the original code does not raise
(`networkx` requires the searched start nodes to be graph nodes). -/
theorem search_returns_min_real_arrival (G : Graph)
    (sd : Dict (List (String × Nat))) (origin_id dest_id : String)
    (start : Nat)
    (_hstarts : ∀ n ∈ validStarts sd origin_id start, (dget? G.nodes n).isSome)
    (p : List String)
    (hfind : find_earliest_arrival_path G sd origin_id dest_id start = some p) :
    ∃ n, p.getLast? = some n ∧
      n ∈ scanList G sd origin_id dest_id start ∧
      (∃ s ∈ (validStarts sd origin_id start).take 10, Reach G.edges s n) ∧
      (∀ m ∈ destNodes sd dest_id,
        (∃ s ∈ (validStarts sd origin_id start).take 10, Reach G.edges s m) →
        (nodeAttr G n).arrival_time ≤ (nodeAttr G m).arrival_time) ∧
      (∃ l₁ l₂, scanList G sd origin_id dest_id start = l₁ ++ n :: l₂ ∧
        ∀ y ∈ l₁,
          (nodeAttr G n).arrival_time < (nodeAttr G y).arrival_time) := by
  simp only [find_earliest_arrival_path] at hfind
  by_cases h1 : validStarts sd origin_id start = []
  · rw [if_pos h1] at hfind
    cases hfind
  · rw [if_neg h1] at hfind
    by_cases h2 : destNodes sd dest_id = []
    · rw [if_pos h2] at hfind
      cases hfind
    · rw [if_neg h2] at hfind
      cases hbest : ((validStarts sd origin_id start).take 10).foldl
          (fun best s => (destNodes sd dest_id).foldl
            (considerDest G (single_source_paths G.edges s)) best) none with
      | none =>
        rw [hbest] at hfind
        cases hfind
      | some ap =>
        rcases ap with ⟨a, pf⟩
        rw [hbest] at hfind
        have hp : pf = p := Option.some.inj hfind
        subst hp
        have hrel := startsFold_rel G (destNodes sd dest_id)
          ((validStarts sd origin_id start).take 10) [] none
          (Or.inl ⟨rfl, rfl⟩)
        rcases hrel with ⟨hnone, -⟩ | ⟨n, a', p', heq, hfm, ha, hend⟩
        · rw [hbest] at hnone
          cases hnone
        · rw [hbest] at heq
          have hpf : pf = p' := congrArg Prod.snd (Option.some.inj heq)
          rw [← hpf] at hend
          have hscan : scanList G sd origin_id dest_id start =
              ((validStarts sd origin_id start).take 10).flatMap
                (fun s => (destNodes sd dest_id).filter
                  (fun x =>
                    (dget? (single_source_paths G.edges s) x).isSome)) := rfl
          rw [List.nil_append] at hfm
          rcases firstMinBy_spec hfm with ⟨hmem, hmin, l₁, l₂, hsplit, hstrict⟩
          refine ⟨n, hend, ?_, ?_, ?_, ?_⟩
          · rw [hscan]; exact hmem
          · exact (scanList_mem_iff.mp (by rw [hscan]; exact hmem)).2
          · intro m hmd hreach
            have hm : m ∈ scanList G sd origin_id dest_id start :=
              scanList_mem_iff.mpr ⟨hmd, hreach⟩
            rw [hscan] at hm
            exact hmin m hm
          · exact ⟨l₁, l₂, by rw [hscan, hsplit], hstrict⟩

/-- Witness for C1 on the two-node graph: the search finds the single
path and its terminal node attains the minimum. -/
theorem search_returns_min_real_arrival_witness :
    (∀ n ∈ validStarts wSd "A" 100, (dget? wGraph.nodes n).isSome) ∧
    ∃ n, (["n1", "n2"] : List String).getLast? = some n ∧
      n ∈ scanList wGraph wSd "A" "B" 100 ∧
      (∃ s ∈ (validStarts wSd "A" 100).take 10, Reach wGraph.edges s n) ∧
      (∀ m ∈ destNodes wSd "B",
        (∃ s ∈ (validStarts wSd "A" 100).take 10, Reach wGraph.edges s m) →
        (nodeAttr wGraph n).arrival_time ≤ (nodeAttr wGraph m).arrival_time) ∧
      (∃ l₁ l₂, scanList wGraph wSd "A" "B" 100 = l₁ ++ n :: l₂ ∧
        ∀ y ∈ l₁,
          (nodeAttr wGraph n).arrival_time <
            (nodeAttr wGraph y).arrival_time) :=
  ⟨by decide,
    search_returns_min_real_arrival wGraph wSd "A" "B" 100 (by decide)
      ["n1", "n2"] (by decide)⟩

/-! ## C10 — the calendar comes from the default data directory -/

theorem string_ext {a b : String} (h : a.data = b.data) : a = b := by
  cases a
  cases b
  simp_all

theorem pathJoin_data (d f : String) :
    (pathJoin d f).data = d.data ++ ('/' :: f.data) := by
  unfold pathJoin
  simp [String.data_append]

theorem pathJoin_ne_name {d : String} {a b : String} (h : a ≠ b) :
    pathJoin d a ≠ pathJoin d b := by
  intro heq
  apply h
  have hd := congrArg String.data heq
  rw [pathJoin_data, pathJoin_data] at hd
  have := List.append_cancel_left hd
  exact string_ext (List.cons.inj this).2

theorem pathJoin_ne_dir {d₁ d₂ : String} {a : String} (h : d₁ ≠ d₂) :
    pathJoin d₁ a ≠ pathJoin d₂ a := by
  intro heq
  apply h
  have hd := congrArg String.data heq
  rw [pathJoin_data, pathJoin_data] at hd
  exact string_ext (List.append_cancel_right hd)

/-- Two joined paths with name suffixes whose reversals disagree on the
shorter length are never equal, whatever the directories. -/
theorem pathJoin_ne_cross {d₁ d₂ : String} {a b : String}
    (hlen : a.data.length ≤ b.data.length)
    (hne : a.data.reverse ≠ b.data.reverse.take a.data.length) :
    pathJoin d₁ a ≠ pathJoin d₂ b := by
  intro heq
  apply hne
  have hd := congrArg String.data heq
  rw [pathJoin_data, pathJoin_data] at hd
  have hr := congrArg List.reverse hd
  rw [List.reverse_append, List.reverse_append] at hr
  have hrc : a.data.reverse ++ '/' :: d₁.data.reverse =
      b.data.reverse ++ '/' :: d₂.data.reverse := by
    simpa using hr
  have ht := congrArg (List.take a.data.length) hrc
  rw [List.take_append_of_le_length (by simp),
    List.take_append_of_le_length (by simpa using hlen)] at ht
  have hself : a.data.reverse.take a.data.length = a.data.reverse := by
    rw [show a.data.length = a.data.reverse.length from
      (List.length_reverse _).symm]
    exact List.take_length _
  calc a.data.reverse = a.data.reverse.take a.data.length := hself.symm
    _ = b.data.reverse.take a.data.length := ht

/-- `build_transit_graph` reads the file system only at the default
calendar path. -/
theorem build_transit_graph_congr (fs₁ fs₂ : FileSystem)
    (h : fs₁ (pathJoin DATA_DIR_DEFAULT "calendar_dates.csv") =
      fs₂ (pathJoin DATA_DIR_DEFAULT "calendar_dates.csv")) :
    ∀ (stops : Dict Stop) (trips : Dict (List Row)) (routes : Dict RouteInfo)
      (trip_routes : Dict TripInfo) (s : Nat) (d : String),
      build_transit_graph fs₁ stops trips routes trip_routes s d =
        build_transit_graph fs₂ stops trips routes trip_routes s d := by
  intro stops trips routes trip_routes s d
  simp only [build_transit_graph]
  rw [h]

theorem earliest_arrival_routing_congr (fs₁ fs₂ : FileSystem)
    (h : fs₁ (pathJoin DATA_DIR_DEFAULT "calendar_dates.csv") =
      fs₂ (pathJoin DATA_DIR_DEFAULT "calendar_dates.csv")) :
    ∀ (stops : Dict Stop) (trips : Dict (List Row)) (routes : Dict RouteInfo)
      (trip_routes : Dict TripInfo) (o d T D : String),
      earliest_arrival_routing fs₁ stops trips routes trip_routes o d T D =
        earliest_arrival_routing fs₂ stops trips routes trip_routes o d T D := by
  intro stops trips routes trip_routes o d T D
  simp only [earliest_arrival_routing,
    build_transit_graph_congr fs₁ fs₂ h]

/-- `getRoute` depends on the file system only through the four query
tables under `data_dir` and the calendar under the *default* directory. -/
theorem getRoute_congr (fs₁ fs₂ : FileSystem) (dir : String)
    (h1 : fs₁ (pathJoin dir "stops.csv") = fs₂ (pathJoin dir "stops.csv"))
    (h2 : fs₁ (pathJoin dir "stop_times.csv") =
      fs₂ (pathJoin dir "stop_times.csv"))
    (h3 : fs₁ (pathJoin dir "routes.csv") = fs₂ (pathJoin dir "routes.csv"))
    (h4 : fs₁ (pathJoin dir "trips.csv") = fs₂ (pathJoin dir "trips.csv"))
    (h5 : fs₁ (pathJoin DATA_DIR_DEFAULT "calendar_dates.csv") =
      fs₂ (pathJoin DATA_DIR_DEFAULT "calendar_dates.csv")) :
    ∀ (o d : Option String) (T D : String),
      getRoute fs₁ o d T D dir = getRoute fs₂ o d T D dir := by
  intro o d T D
  simp only [getRoute, compute_route, h1, h2, h3, h4,
    earliest_arrival_routing_congr fs₁ fs₂ h5]

/-- C10: the service calendar is always read from the hard-coded
`DATA_DIR_DEFAULT/calendar_dates.csv`, not from the query's `data_dir`:
(1) the result depends on the file system only through the four query
tables under `data_dir` and the calendar under the *default* directory
(in particular a `calendar_dates.csv` inside `data_dir ≠ default` is
ignored); and (2) concretely, a feed whose four tables live under
`other/` answers queries iff the calendar sits at
`public/data/calendar_dates.csv` — placing it at
`other/calendar_dates.csv` instead leaves every trip filtered out. -/
theorem calendar_read_from_default_dir :
    (∀ (fs₁ fs₂ : FileSystem) (dir : String) (o d : Option String)
        (T D : String),
      fs₁ (pathJoin dir "stops.csv") = fs₂ (pathJoin dir "stops.csv") →
      fs₁ (pathJoin dir "stop_times.csv") =
        fs₂ (pathJoin dir "stop_times.csv") →
      fs₁ (pathJoin dir "routes.csv") = fs₂ (pathJoin dir "routes.csv") →
      fs₁ (pathJoin dir "trips.csv") = fs₂ (pathJoin dir "trips.csv") →
      fs₁ (pathJoin DATA_DIR_DEFAULT "calendar_dates.csv") =
        fs₂ (pathJoin DATA_DIR_DEFAULT "calendar_dates.csv") →
      getRoute fs₁ o d T D dir = getRoute fs₂ o d T D dir) ∧
    answersJourney (getRoute fsOtherDir (some "A") (some "C") "08:00:00"
      "20250101" "other") = true ∧
    answersJourney (getRoute fsOtherDirLocalCal (some "A") (some "C")
      "08:00:00" "20250101" "other") = false ∧
    fsOtherDirLocalCal (pathJoin "other" "calendar_dates.csv") =
      some feedACalendar := by
  refine ⟨?_, by decide, by decide, by decide⟩
  intro fs₁ fs₂ dir o d T D h1 h2 h3 h4 h5
  exact getRoute_congr fs₁ fs₂ dir h1 h2 h3 h4 h5 o d T D

/-- Witness for C10: overwriting the query directory's own
`calendar_dates.csv` does not change the answer. -/
theorem calendar_read_from_default_dir_witness :
    getRoute fsOtherDir (some "A") (some "C") "08:00:00" "20250101" "other" =
      getRoute (fun p => if p = pathJoin "other" "calendar_dates.csv"
        then some feedACalendar else fsOtherDir p) (some "A") (some "C")
        "08:00:00" "20250101" "other" :=
  calendar_read_from_default_dir.1 fsOtherDir
    (fun p => if p = pathJoin "other" "calendar_dates.csv"
      then some feedACalendar else fsOtherDir p)
    "other" (some "A") (some "C") "08:00:00" "20250101"
    (by decide) (by decide) (by decide) (by decide) (by decide)

/-! ## C5 — which tables are load-bearing -/

theorem removeFile_self (fs : FileSystem) (p : String) :
    removeFile fs p p = none := by
  simp [removeFile]

theorem removeFile_other (fs : FileSystem) {p q : String} (h : q ≠ p) :
    removeFile fs p q = fs q := by
  simp [removeFile, h]

theorem dget?_map {α β : Type} (f : α → β) (l : Dict α) (k : String) :
    dget? (l.map (fun p => (p.1, f p.2))) k = (dget? l k).map f := by
  induction l with
  | nil => rfl
  | cons p t ih =>
    by_cases h : p.1 = k
    · simp [dget?, h]
    · simp only [List.map_cons]
      unfold dget? at ih ⊢
      rw [List.find?_cons_of_neg, List.find?_cons_of_neg]
      · exact ih
      · simpa using h
      · simpa using h

theorem dinsert_map {α β : Type} (f : α → β) (k : String) (a : α) :
    ∀ l : Dict α,
      (dinsert k a l).map (fun p => (p.1, f p.2)) =
        dinsert k (f a) (l.map (fun p => (p.1, f p.2)))
  | [] => rfl
  | p :: t => by
    by_cases h : p.1 = k
    · simp [dinsert, h]
    · simp [dinsert, h, dinsert_map f k a t]

theorem nodeAttr_core {G G' : Graph} (h : GRel G G') (n : String) :
    (nodeAttr G n).core = (nodeAttr G' n).core := by
  have e : (dget? G.nodes n).map NodeAttrs.core =
      (dget? G'.nodes n).map NodeAttrs.core := by
    rw [← dget?_map NodeAttrs.core G.nodes n,
      ← dget?_map NodeAttrs.core G'.nodes n, h.2]
  unfold nodeAttr
  cases h1 : dget? G.nodes n with
  | none =>
    rw [h1] at e
    cases h2 : dget? G'.nodes n with
    | none => rfl
    | some b => rw [h2] at e; cases e
  | some a =>
    rw [h1] at e
    cases h2 : dget? G'.nodes n with
    | none => rw [h2] at e; cases e
    | some b =>
      rw [h2] at e
      simpa using e

theorem addNode_rel {G G' : Graph} (h : GRel G G') {n : String}
    {a a' : NodeAttrs} (ha : a.core = a'.core) :
    GRel (G.addNode n a) (G'.addNode n a') := by
  refine ⟨h.1, ?_⟩
  show (dinsert n a G.nodes).map _ = (dinsert n a' G'.nodes).map _
  rw [dinsert_map, dinsert_map, h.2, ha]

theorem addEdge_rel {G G' : Graph} (h : GRel G G') (u v : String)
    (e : EdgeData) : GRel (G.addEdge u v e) (G'.addEdge u v e) := by
  refine ⟨?_, h.2⟩
  show edgeInsert u v e G.edges = edgeInsert u v e G'.edges
  rw [h.1]

theorem sdAppend_rel {st st' : BuildState} (h : BRel st st')
    (sid nid : String) (d : Nat) :
    SRel (sdAppend sid nid d st) (sdAppend sid nid d st') := by
  unfold sdAppend
  rw [h.2]
  cases dget? st'.sd sid with
  | none => rfl
  | some l => exact ⟨h.1, rfl⟩

theorem addPrevEdge_rel {st st' : BuildState} (h : BRel st st')
    (tid : String) (a : Nat) (prev : Option (String × Nat)) (nid : String) :
    BRel (addPrevEdge tid a prev nid st) (addPrevEdge tid a prev nid st') := by
  cases prev with
  | none => exact h
  | some pr =>
    rcases pr with ⟨pid, pdep⟩
    simp only [addPrevEdge]
    by_cases hw : 0 ≤ (a : Int) - (pdep : Int)
    · rw [if_pos hw, if_pos hw]
      exact ⟨addEdge_rel h.1 _ _ _, h.2⟩
    · rw [if_neg hw, if_neg hw]
      exact h


theorem SRel_bind {x y : Except PyErr BuildState} (h : SRel x y)
    {f g : BuildState → Except PyErr BuildState}
    (hfg : ∀ s s', BRel s s' → SRel (f s) (g s')) :
    SRel (x >>= f) (y >>= g) := by
  cases x with
  | error e =>
    cases y with
    | error e' =>
      simp only [SRel] at h
      rw [h]
      simp only [exceptBind_err]
      rfl
    | ok s =>
      simp only [SRel] at h
  | ok s =>
    cases y with
    | error e' =>
      simp only [SRel] at h
    | ok s' =>
      simp only [exceptBind_ok]
      exact hfg s s' (by simpa [SRel] using h)

theorem addTripRows_cons_noStop {stops : Dict Stop} {date : String}
    {start : Nat} {tid rid rn rdesc th tsn : String} {r : Row}
    {rest : List Row} {idx : Nat} {prev : Option (String × Nat)}
    {st : BuildState} (h : rowGet? r "stop_id" = none) :
    addTripRows stops date start tid rid rn rdesc th tsn (r :: rest) idx
        prev st = .error (.keyError "stop_id") := by
  simp only [addTripRows, h]

theorem addTripRows_cons_skip {stops : Dict Stop} {date : String}
    {start : Nat} {tid rid rn rdesc th tsn : String} {r : Row}
    {rest : List Row} {idx : Nat} {prev : Option (String × Nat)}
    {st : BuildState} {sid : String} (h : rowGet? r "stop_id" = some sid)
    (h2 : emittedRow start r = none) :
    addTripRows stops date start tid rid rn rdesc th tsn (r :: rest) idx
        prev st =
      addTripRows stops date start tid rid rn rdesc th tsn rest (idx + 1)
        prev st := by
  simp only [addTripRows, h, h2]

theorem addTripRows_cons_emit {stops : Dict Stop} {date : String}
    {start : Nat} {tid rid rn rdesc th tsn : String} {r : Row}
    {rest : List Row} {idx : Nat} {prev : Option (String × Nat)}
    {st : BuildState} {sid : String} {a d : Nat}
    (h : rowGet? r "stop_id" = some sid)
    (h2 : emittedRow start r = some (a, d)) :
    addTripRows stops date start tid rid rn rdesc th tsn (r :: rest) idx
        prev st =
      (sdAppend sid (mkNodeId sid tid idx) d
          { st with G := (st.G.addNode (mkNodeId sid tid idx)
              ⟨sid, tid, rid, a, d, idx,
                ((dget? stops sid).map (fun s => s.name)).getD "",
                rn, rdesc, th, tsn, date⟩) }) >>= fun st2 =>
        addTripRows stops date start tid rid rn rdesc th tsn rest (idx + 1)
          (some (mkNodeId sid tid idx, d))
          (addPrevEdge tid a prev (mkNodeId sid tid idx) st2) := by
  simp only [addTripRows, h, h2]

theorem addAllTrips_cons {stops : Dict Stop} {date : String} {start : Nat}
    {routes : Dict RouteInfo} {tr : Dict TripInfo} {tid : String}
    {rows : List Row} {rest : List (String × List Row)} {st : BuildState} :
    addAllTrips stops date start routes tr ((tid, rows) :: rest) st =
      (addTripRows stops date start tid
        ((dget? tr tid).getD ⟨"", "", "", ""⟩).route_id
        (match dget? routes ((dget? tr tid).getD ⟨"", "", "", ""⟩).route_id with
          | some ri => ri.route_short_name
          | none => ((dget? tr tid).getD ⟨"", "", "", ""⟩).route_id)
        (match dget? routes ((dget? tr tid).getD ⟨"", "", "", ""⟩).route_id with
          | some ri => ri.route_long_name
          | none => "")
        ((dget? tr tid).getD ⟨"", "", "", ""⟩).trip_headsign
        ((dget? tr tid).getD ⟨"", "", "", ""⟩).trip_short_name
        rows 0 none st) >>= fun st2 =>
      addAllTrips stops date start routes tr rest st2 := by
  simp only [addAllTrips]

theorem addTripRows_rel (stops : Dict Stop) (date : String) (start : Nat)
    (tid rid rn rdesc th tsn rn' rdesc' : String) :
    ∀ (rows : List Row) (idx : Nat) (prev : Option (String × Nat))
      (st st' : BuildState), BRel st st' →
      SRel (addTripRows stops date start tid rid rn rdesc th tsn rows idx
          prev st)
        (addTripRows stops date start tid rid rn' rdesc' th tsn rows idx
          prev st') := by
  intro rows
  induction rows with
  | nil => intro idx prev st st' h; exact h
  | cons r rest ih =>
    intro idx prev st st' h
    cases hsid : rowGet? r "stop_id" with
    | none =>
      rw [addTripRows_cons_noStop hsid, addTripRows_cons_noStop hsid]
      rfl
    | some sid =>
      cases hem : emittedRow start r with
      | none =>
        rw [addTripRows_cons_skip hsid hem, addTripRows_cons_skip hsid hem]
        exact ih (idx + 1) prev st st' h
      | some ad =>
        rcases ad with ⟨a, d⟩
        rw [addTripRows_cons_emit hsid hem, addTripRows_cons_emit hsid hem]
        apply SRel_bind
        · apply sdAppend_rel
          exact ⟨addNode_rel h.1 rfl, h.2⟩
        · intro s2 s2' hS
          exact ih (idx + 1) _ _ _
            (addPrevEdge_rel hS tid a prev (mkNodeId sid tid idx))

theorem addAllTrips_rel (stops : Dict Stop) (date : String) (start : Nat)
    (routes routes' : Dict RouteInfo) (trip_routes : Dict TripInfo) :
    ∀ (l : List (String × List Row)) (st st' : BuildState), BRel st st' →
      SRel (addAllTrips stops date start routes trip_routes l st)
        (addAllTrips stops date start routes' trip_routes l st') := by
  intro l
  induction l with
  | nil => intro st st' h; exact h
  | cons p rest ih =>
    rcases p with ⟨tid, rows⟩
    intro st st' h
    rw [addAllTrips_cons, addAllTrips_cons]
    apply SRel_bind
    · exact addTripRows_rel stops date start tid _ _ _ _ _ _ _ rows 0 none
        st st' h
    · intro s2 s2' hS
      exact ih s2 s2' hS

theorem scanTransfers_rel (stop_id from_node from_trip : String)
    (from_arrival : Nat) :
    ∀ (l : List (String × Nat)) (added : Nat) {G G' : Graph}, GRel G G' →
      GRel (scanTransfers stop_id from_node from_trip from_arrival l added G)
        (scanTransfers stop_id from_node from_trip from_arrival l added
          G') := by
  intro l
  induction l with
  | nil => intro added G G' h; exact h
  | cons p rest ih =>
    rcases p with ⟨to_node, to_time⟩
    intro added G G' h
    simp only [scanTransfers]
    have ht : (nodeAttr G to_node).trip_id = (nodeAttr G' to_node).trip_id :=
      congrArg NodeCore.trip_id (nodeAttr_core h to_node)
    rw [← ht]
    by_cases hc : from_trip ≠ (nodeAttr G to_node).trip_id
    · rw [if_pos hc, if_pos hc]
      by_cases hw : 0 ≤ (to_time : Int) - (from_arrival : Int)
      · rw [if_pos hw, if_pos hw]
        by_cases h2 : 2 ≤ added + 1
        · rw [if_pos h2, if_pos h2]
          exact addEdge_rel h _ _ _
        · rw [if_neg h2, if_neg h2]
          exact ih (added + 1) (addEdge_rel h _ _ _)
      · rw [if_neg hw, if_neg hw]
        exact ih added h
    · rw [if_neg hc, if_neg hc]
      exact ih added h

theorem transferLoop_rel (stop_id : String) :
    ∀ (l : List (String × Nat)) {G G' : Graph}, GRel G G' →
      GRel (transferLoop stop_id l G) (transferLoop stop_id l G') := by
  intro l
  induction l with
  | nil => intro G G' h; exact h
  | cons p rest ih =>
    rcases p with ⟨from_node, ft⟩
    intro G G' h
    simp only [transferLoop]
    have h1 : (nodeAttr G from_node).trip_id =
        (nodeAttr G' from_node).trip_id :=
      congrArg NodeCore.trip_id (nodeAttr_core h from_node)
    have h2 : (nodeAttr G from_node).arrival_time =
        (nodeAttr G' from_node).arrival_time :=
      congrArg NodeCore.arrival_time (nodeAttr_core h from_node)
    rw [← h1, ← h2]
    exact ih (scanTransfers_rel _ _ _ _ (rest.take 2) 0 h)

theorem addAllTransfers_rel :
    ∀ (l : List (String × List (String × Nat))) {G G' : Graph}, GRel G G' →
      GRel (addAllTransfers l G) (addAllTransfers l G') := by
  intro l
  induction l with
  | nil => intro G G' h; exact h
  | cons p rest ih =>
    rcases p with ⟨sid, deps⟩
    intro G G' h
    simp only [addAllTransfers]
    exact ih (transferLoop_rel sid deps h)

theorem BORel_of_SRel {x y : Except PyErr BuildState} (h : SRel x y)
    {f g : BuildState → Except PyErr (Graph × Dict (List (String × Nat)))}
    (hfg : ∀ s s', BRel s s' → BORel (f s) (g s')) :
    BORel (x >>= f) (y >>= g) := by
  cases x with
  | error e =>
    cases y with
    | error e' =>
      simp only [SRel] at h
      rw [h]
      simp only [exceptBind_err]
      rfl
    | ok s =>
      simp only [SRel] at h
  | ok s =>
    cases y with
    | error e' =>
      simp only [SRel] at h
    | ok s' =>
      simp only [exceptBind_ok]
      exact hfg s s' (by simpa [SRel] using h)

theorem build_transit_graph_routes_rel (fs : FileSystem) (stops : Dict Stop)
    (trips : Dict (List Row)) (routes routes' : Dict RouteInfo)
    (trip_routes : Dict TripInfo) (s : Nat) (d : String) :
    BORel (build_transit_graph fs stops trips routes trip_routes s d)
      (build_transit_graph fs stops trips routes' trip_routes s d) := by
  simp only [build_transit_graph]
  cases hc : load_calendar_dates
      (fs (pathJoin DATA_DIR_DEFAULT "calendar_dates.csv")) with
  | error e =>
    simp only [exceptBind_err]
    rfl
  | ok sdates =>
    simp only [exceptBind_ok]
    apply BORel_of_SRel
    · exact addAllTrips_rel stops d s routes routes' trip_routes _ _ _
        ⟨⟨rfl, rfl⟩, rfl⟩
    · intro t t' hB
      refine ⟨?_, ?_⟩
      · rw [hB.2]
        exact addAllTransfers_rel _ hB.1
      · rw [hB.2]

theorem considerDest_rel {G G' : Graph} (h : GRel G G')
    (paths : Dict (List String)) (b : Option (Nat × List String))
    (d : String) : considerDest G paths b d = considerDest G' paths b d := by
  unfold considerDest
  cases dget? paths d with
  | none => rfl
  | some p =>
    have ha : (nodeAttr G d).arrival_time = (nodeAttr G' d).arrival_time :=
      congrArg NodeCore.arrival_time (nodeAttr_core h d)
    rw [ha]

theorem find_rel {G G' : Graph} (h : GRel G G')
    (sd : Dict (List (String × Nat))) (o d : String) (s : Nat) :
    find_earliest_arrival_path G sd o d s =
      find_earliest_arrival_path G' sd o d s := by
  unfold find_earliest_arrival_path
  rw [h.1]
  have hc : considerDest G = considerDest G' :=
    funext fun paths => funext fun b => funext fun dn =>
      considerDest_rel h paths b dn
  rw [hc]

theorem path_to_detailed_answers (G : Graph) (path : List String)
    (stops : Dict Stop) (o d T D : String) :
    answersJourney (path_to_detailed_route G path stops o d T D) =
      decide (path ≠ []) := by
  unfold path_to_detailed_route
  by_cases hp : path = []
  · rw [if_pos hp]
    simp [hp, answersJourney]
  · rw [if_neg hp]
    simp [hp, answersJourney]

theorem answersExcept_bind_BORel
    {x y : Except PyErr (Graph × Dict (List (String × Nat)))} (h : BORel x y)
    {f g : Graph × Dict (List (String × Nat)) → Except PyErr RouteOutput}
    (hfg : ∀ p p', GRel p.1 p'.1 → p.2 = p'.2 →
      answersExcept (f p) = answersExcept (g p')) :
    answersExcept (x >>= f) = answersExcept (y >>= g) := by
  cases x with
  | error e =>
    cases y with
    | error e' => rfl
    | ok p => simp only [BORel] at h
  | ok p =>
    cases y with
    | error e' => simp only [BORel] at h
    | ok p' =>
      simp only [exceptBind_ok]
      have h' : GRel p.1 p'.1 ∧ p.2 = p'.2 := by simpa [BORel] using h
      exact hfg p p' h'.1 h'.2

theorem earliest_ans_rel (fs : FileSystem) (stops : Dict Stop)
    (trips : Dict (List Row)) (routes routes' : Dict RouteInfo)
    (trip_routes : Dict TripInfo) (o d T D : String) :
    answersExcept (earliest_arrival_routing fs stops trips routes
        trip_routes o d T D) =
      answersExcept (earliest_arrival_routing fs stops trips routes'
        trip_routes o d T D) := by
  unfold earliest_arrival_routing
  cases hparse : parse_time_to_seconds T with
  | none => rfl
  | some s =>
    apply answersExcept_bind_BORel
      (build_transit_graph_routes_rel fs stops trips routes routes'
        trip_routes s (stripHyphens D))
    intro p p' h1 h2
    rcases p with ⟨G, sd⟩
    rcases p' with ⟨G', sd'⟩
    have hsd : sd = sd' := h2
    subst hsd
    have hG : GRel G G' := h1
    show answersExcept
        (match find_earliest_arrival_path G sd o d s with
          | none => .ok (.errObj ("No route found from " ++ o ++ " to " ++ d ++
              " after " ++ T ++ " on " ++ stripHyphens D) false)
          | some path =>
            .ok (path_to_detailed_route G path stops o d T (stripHyphens D))) =
      answersExcept
        (match find_earliest_arrival_path G' sd o d s with
          | none => .ok (.errObj ("No route found from " ++ o ++ " to " ++ d ++
              " after " ++ T ++ " on " ++ stripHyphens D) false)
          | some path =>
            .ok (path_to_detailed_route G' path stops o d T (stripHyphens D)))
    rw [find_rel hG sd o d s]
    cases find_earliest_arrival_path G' sd o d s with
    | none => rfl
    | some path =>
      show answersJourney (path_to_detailed_route G path stops o d T
          (stripHyphens D)) =
        answersJourney (path_to_detailed_route G' path stops o d T
          (stripHyphens D))
      rw [path_to_detailed_answers, path_to_detailed_answers]

theorem answers_getRoute (fs : FileSystem) (o d : Option String)
    (T D dir : String) :
    answersJourney (getRoute fs o d T D dir) =
      answersExcept (compute_route fs o d T D dir) := by
  unfold getRoute
  cases compute_route fs o d T D dir with
  | ok r => rfl
  | error e => rfl

theorem routes_removal_preserves_answers (fs : FileSystem) (dir : String)
    (o d : Option String) (T D : String) :
    answersJourney (getRoute (removeFile fs (pathJoin dir "routes.csv"))
        o d T D dir) =
      answersJourney (getRoute fs o d T D dir) := by
  rw [answers_getRoute, answers_getRoute]
  have h1 : removeFile fs (pathJoin dir "routes.csv")
      (pathJoin dir "stops.csv") = fs (pathJoin dir "stops.csv") :=
    removeFile_other fs (pathJoin_ne_name (by decide))
  have h2 : removeFile fs (pathJoin dir "routes.csv")
      (pathJoin dir "stop_times.csv") = fs (pathJoin dir "stop_times.csv") :=
    removeFile_other fs (pathJoin_ne_name (by decide))
  have h3 : removeFile fs (pathJoin dir "routes.csv")
      (pathJoin dir "routes.csv") = none := removeFile_self _ _
  have h4 : removeFile fs (pathJoin dir "routes.csv")
      (pathJoin dir "trips.csv") = fs (pathJoin dir "trips.csv") :=
    removeFile_other fs (pathJoin_ne_name (by decide))
  have h5 : removeFile fs (pathJoin dir "routes.csv")
      (pathJoin DATA_DIR_DEFAULT "calendar_dates.csv") =
        fs (pathJoin DATA_DIR_DEFAULT "calendar_dates.csv") :=
    removeFile_other fs
      (Ne.symm (pathJoin_ne_cross (by decide) (by decide)))
  unfold compute_route
  rw [h1, h2, h3, h4]
  cases hs : load_stops (pathJoin dir "stops.csv")
      (fs (pathJoin dir "stops.csv")) with
  | error e => rfl
  | ok stops =>
    simp only [exceptBind_ok]
    cases ht : load_stop_times_by_trip (pathJoin dir "stop_times.csv")
        (fs (pathJoin dir "stop_times.csv")) with
    | error e => rfl
    | ok trips =>
      simp only [exceptBind_ok]
      cases o with
      | none => rfl
      | some os =>
        cases d with
        | none => rfl
        | some ds =>
          show answersExcept (if os = ds then _ else _) =
            answersExcept (if os = ds then _ else _)
          by_cases he : os = ds
          · rw [if_pos he, if_pos he]
          · rw [if_neg he, if_neg he]
            rw [earliest_arrival_routing_congr
              (removeFile fs (pathJoin dir "routes.csv")) fs h5]
            exact earliest_ans_rel fs stops trips (load_routes_info none)
              (load_routes_info (fs (pathJoin dir "routes.csv")))
              (load_trips_info (fs (pathJoin dir "trips.csv"))) os ds T D

theorem dget_all_nil {α : Type} (l : List (String × List α))
    (h : ∀ p ∈ l, p.2 = []) (k : String) :
    ((dget? l k).getD []) = [] := by
  cases hf : dget? l k with
  | none => rfl
  | some v =>
    have := h _ (dget?_some_mem hf)
    simpa using this

theorem validStarts_nil {sd : Dict (List (String × Nat))}
    (h : ∀ p ∈ sd, p.2 = []) (o : String) (s : Nat) :
    validStarts sd o s = [] := by
  unfold validStarts
  rw [dget_all_nil sd h o]
  rfl

theorem find_none_of_nil {sd : Dict (List (String × Nat))}
    (h : ∀ p ∈ sd, p.2 = []) (G : Graph) (o d : String) (s : Nat) :
    find_earliest_arrival_path G sd o d s = none := by
  unfold find_earliest_arrival_path
  rw [validStarts_nil h o s]
  rfl

theorem dateRelevantTrips_tr_nil (trips : Dict (List Row))
    (active : List String) :
    dateRelevantTrips trips ([] : Dict TripInfo) active = [] := by
  unfold dateRelevantTrips
  exact List.filter_eq_nil_iff.mpr (fun a _ => by simp [dget?])

theorem relevantTrips_tr_nil (trips : Dict (List Row)) (active : List String)
    (s : Nat) : relevantTrips trips ([] : Dict TripInfo) active s = [] := by
  unfold relevantTrips
  rw [dateRelevantTrips_tr_nil]
  rfl

theorem dateRelevantTrips_active_nil (trips : Dict (List Row))
    (tr : Dict TripInfo) :
    dateRelevantTrips trips tr ([] : List String) = [] := by
  unfold dateRelevantTrips
  refine List.filter_eq_nil_iff.mpr ?_
  intro a _ h
  rcases hd : dget? tr a.1 with _ | info
  · simp only [hd] at h
    exact Bool.noConfusion h
  · simp only [hd] at h
    simp at h

theorem relevantTrips_active_nil (trips : Dict (List Row))
    (tr : Dict TripInfo) (s : Nat) :
    relevantTrips trips tr ([] : List String) s = [] := by
  unfold relevantTrips
  rw [dateRelevantTrips_active_nil]
  rfl

theorem sd0_entries (stops : Dict Stop) :
    ∀ p ∈ (stops.map
        (fun q => (q.1, ([] : List (String × Nat))))).map
        (fun q => (q.1, sortByKey (fun r => (r.2 : Int)) q.2)),
      p.2 = [] := by
  intro p hp
  rcases List.mem_map.mp hp with ⟨q, hq, rfl⟩
  rcases List.mem_map.mp hq with ⟨r, hr, rfl⟩
  rfl

theorem earliest_no_journey (fs : FileSystem) (stops : Dict Stop)
    (trips : Dict (List Row)) (routes : Dict RouteInfo) (tr : Dict TripInfo)
    (o d T D : String)
    (h : ∀ (sdates : Dict (List String)) (s : Nat),
      load_calendar_dates
        (fs (pathJoin DATA_DIR_DEFAULT "calendar_dates.csv")) = .ok sdates →
      relevantTrips trips tr (activeServiceIds sdates (stripHyphens D)) s =
        []) :
    answersExcept (earliest_arrival_routing fs stops trips routes tr
      o d T D) = false := by
  unfold earliest_arrival_routing
  cases hparse : parse_time_to_seconds T with
  | none => rfl
  | some s =>
    show answersExcept
      ((build_transit_graph fs stops trips routes tr s (stripHyphens D))
        >>= _) = false
    simp only [build_transit_graph]
    cases hc : load_calendar_dates
        (fs (pathJoin DATA_DIR_DEFAULT "calendar_dates.csv")) with
    | error e => rfl
    | ok sdates =>
      simp only [exceptBind_ok]
      rw [h sdates s hc]
      simp only [addAllTrips, exceptBind_ok]
      rw [find_none_of_nil (sd0_entries stops)]
      rfl

theorem answers_false_of_no_rel (fs : FileSystem) (o d : Option String)
    (T D dir : String)
    (h : ∀ (trips : Dict (List Row)) (sdates : Dict (List String)) (s : Nat),
      load_calendar_dates
        (fs (pathJoin DATA_DIR_DEFAULT "calendar_dates.csv")) = .ok sdates →
      relevantTrips trips (load_trips_info (fs (pathJoin dir "trips.csv")))
        (activeServiceIds sdates (stripHyphens D)) s = []) :
    answersJourney (getRoute fs o d T D dir) = false := by
  rw [answers_getRoute]
  unfold compute_route
  cases hs : load_stops (pathJoin dir "stops.csv")
      (fs (pathJoin dir "stops.csv")) with
  | error e => rfl
  | ok stops =>
    simp only [exceptBind_ok]
    cases ht : load_stop_times_by_trip (pathJoin dir "stop_times.csv")
        (fs (pathJoin dir "stop_times.csv")) with
    | error e => rfl
    | ok trips =>
      simp only [exceptBind_ok]
      cases o with
      | none => rfl
      | some os =>
        cases d with
        | none => rfl
        | some ds =>
          show answersExcept (if os = ds then _ else _) = false
          by_cases he : os = ds
          · rw [if_pos he]
            cases dget? stops os with
            | none => rfl
            | some stp => rfl
          · rw [if_neg he]
            exact earliest_no_journey fs stops trips _ _ os ds T D (h trips)

theorem trips_removal_kills (fs : FileSystem) (dir : String)
    (o d : Option String) (T D : String) :
    answersJourney (getRoute (removeFile fs (pathJoin dir "trips.csv"))
      o d T D dir) = false := by
  apply answers_false_of_no_rel
  intro trips sdates s _
  rw [removeFile_self]
  exact relevantTrips_tr_nil trips _ s

theorem calendar_removal_kills (fs : FileSystem) (dir : String)
    (o d : Option String) (T D : String) :
    answersJourney
      (getRoute (removeFile fs (pathJoin DATA_DIR_DEFAULT
        "calendar_dates.csv")) o d T D dir) = false := by
  apply answers_false_of_no_rel
  intro trips sdates s hc
  rw [removeFile_self] at hc
  have hnil : sdates = [] := by
    have : (Except.ok [] : Except PyErr (Dict (List String))) = .ok sdates :=
      hc
    exact (Except.ok.inj this).symm
  subst hnil
  exact relevantTrips_active_nil trips _ s

theorem calendar_other_dir_noop (fs : FileSystem) (dir : String)
    (hdir : dir ≠ DATA_DIR_DEFAULT) (o d : Option String) (T D : String) :
    getRoute (removeFile fs (pathJoin dir "calendar_dates.csv")) o d T D dir =
      getRoute fs o d T D dir :=
  getRoute_congr _ fs dir
    (removeFile_other fs (pathJoin_ne_name (by decide)))
    (removeFile_other fs (pathJoin_ne_name (by decide)))
    (removeFile_other fs (pathJoin_ne_name (by decide)))
    (removeFile_other fs (pathJoin_ne_name (by decide)))
    (removeFile_other fs (pathJoin_ne_dir (Ne.symm hdir)))
    o d T D

/-- C5 counterexample: on Feed A the query A→C at 08:00 is answered with a
journey, but after deleting `trips.csv` — or the default-directory
`calendar_dates.csv` — from the input directory the same query gets "No
route found": removing those tables *does* change which pairs are
answerable, contrary to the claim. -/
theorem removing_trips_or_calendar_changes_answers :
    answersJourney (getRoute fsA (some "A") (some "C") "08:00:00" "20250101"
      DATA_DIR_DEFAULT) = true ∧
    answersJourney (getRoute (removeFile fsA (pathJoin DATA_DIR_DEFAULT
      "trips.csv")) (some "A") (some "C") "08:00:00" "20250101"
      DATA_DIR_DEFAULT) = false ∧
    answersJourney (getRoute (removeFile fsA (pathJoin DATA_DIR_DEFAULT
      "calendar_dates.csv")) (some "A") (some "C") "08:00:00" "20250101"
      DATA_DIR_DEFAULT) = false :=
  ⟨by decide, by decide, by decide⟩

/-- C5 (amended): of the three "optional" tables only `routes.csv` is
decorative.  (1) Removing `routes.csv` never changes whether a query is
answered with a journey.  (2) Removing `trips.csv` makes *every* query
journey-free (no trip passes the service filter, so the graph is empty).
(3) Removing the default directory's `calendar_dates.csv` likewise makes
every query journey-free (no service is active).  (4) Removing a
`calendar_dates.csv` that sits in a non-default query directory is a
complete no-op — that copy is never read. -/
theorem missing_table_effects :
    (∀ (fs : FileSystem) (dir : String) (o d : Option String) (T D : String),
      answersJourney (getRoute (removeFile fs (pathJoin dir "routes.csv"))
          o d T D dir) =
        answersJourney (getRoute fs o d T D dir)) ∧
    (∀ (fs : FileSystem) (dir : String) (o d : Option String) (T D : String),
      answersJourney (getRoute (removeFile fs (pathJoin dir "trips.csv"))
        o d T D dir) = false) ∧
    (∀ (fs : FileSystem) (dir : String) (o d : Option String) (T D : String),
      answersJourney (getRoute (removeFile fs
        (pathJoin DATA_DIR_DEFAULT "calendar_dates.csv")) o d T D dir) =
        false) ∧
    (∀ (fs : FileSystem) (dir : String), dir ≠ DATA_DIR_DEFAULT →
      ∀ (o d : Option String) (T D : String),
        getRoute (removeFile fs (pathJoin dir "calendar_dates.csv"))
          o d T D dir = getRoute fs o d T D dir) :=
  ⟨routes_removal_preserves_answers, trips_removal_kills,
    calendar_removal_kills,
    fun fs dir hdir => calendar_other_dir_noop fs dir hdir⟩

/-- Witness for the amended C5, at concrete feeds. -/
theorem missing_table_effects_witness :
    (answersJourney (getRoute (removeFile fsA (pathJoin DATA_DIR_DEFAULT
        "routes.csv")) (some "A") (some "C") "08:00:00" "20250101"
        DATA_DIR_DEFAULT) =
      answersJourney (getRoute fsA (some "A") (some "C") "08:00:00"
        "20250101" DATA_DIR_DEFAULT)) ∧
    answersJourney (getRoute (removeFile fsOtherDir (pathJoin "other"
      "trips.csv")) (some "A") (some "C") "08:00:00" "20250101" "other") =
      false ∧
    answersJourney (getRoute (removeFile fsA (pathJoin DATA_DIR_DEFAULT
      "calendar_dates.csv")) (some "B") (some "D") "08:00:00" "20250101"
      DATA_DIR_DEFAULT) = false ∧
    ("other" ≠ DATA_DIR_DEFAULT ∧
      getRoute (removeFile fsOtherDir (pathJoin "other" "calendar_dates.csv"))
          (some "A") (some "C") "08:00:00" "20250101" "other" =
        getRoute fsOtherDir (some "A") (some "C") "08:00:00" "20250101"
          "other") :=
  ⟨missing_table_effects.1 fsA DATA_DIR_DEFAULT (some "A") (some "C")
      "08:00:00" "20250101",
    missing_table_effects.2.1 fsOtherDir "other" (some "A") (some "C")
      "08:00:00" "20250101",
    missing_table_effects.2.2.1 fsA DATA_DIR_DEFAULT (some "B") (some "D")
      "08:00:00" "20250101",
    by decide,
    missing_table_effects.2.2.2 fsOtherDir "other" (by decide) (some "A")
      (some "C") "08:00:00" "20250101"⟩
